import Mathlib

/-!
Verification development for the finybot backend.

This file gives a shallow embedding of the two core subsystems of the
repository — the Gmail → PDF → Gemini → Firestore sync pipeline
(`app/services/sync_service.py`, `app/services/pdf_service.py`,
`app/services/firestore_service.py`) and the agentic tool-calling loop
(`app/services/chat_agent_service.py`) — and proves the stated properties
about them.

Modelling conventions:
* External collaborators (Gmail API, pikepdf, pdfplumber, the Gemini
  client, the secret codec) are oracles collected in an `Env` record;
  a fallible call is an `Except PyError` value, mirroring a Python call
  that either returns or raises.
* The Firestore statement collection is an association list keyed by
  document id; `set(..., merge=True)` is modelled by applying the written
  fields to the existing document (or to an empty document when absent).
* Python `float` amounts are modelled as exact rationals `ℚ`; Python
  `round(x, 2)` is modelled as rounding the scaled rational.  No claim
  in this development exercises a rounding tie or a float-representation
  artefact.
* PDF byte strings are opaque and identified by a natural-number code;
  every operation on the bytes themselves is an oracle in `Env`.
* Consultations of the side-effecting external services are recorded in
  an explicit effect trace so that "this call never happens" properties
  are statable.
-/

namespace Finybot

/-- Python string slicing `s[:n]` (the first `n` characters). -/
def pyTake (s : String) (n : Nat) : String := ⟨s.data.take n⟩

/-- Occurrence scan for `pyContains`. -/
def containsAux (pat : List Char) : List Char → Bool
  | [] => pat.isPrefixOf []
  | c :: rest => pat.isPrefixOf (c :: rest) || containsAux pat rest

/-- Python substring test `pat in s`. -/
def pyContains (s pat : String) : Bool := containsAux pat.data s.data

/-- Python `str.lower()` (character-wise; adequate for the ASCII
signals the code inspects). -/
def pyLower (s : String) : String := ⟨s.data.map Char.toLower⟩

/-- Python `str.strip()`: remove leading and trailing whitespace. -/
def pyStrip (s : String) : String :=
  ⟨((s.data.dropWhile Char.isWhitespace).reverse.dropWhile Char.isWhitespace).reverse⟩

/-- Python `str.startswith(pat)`. -/
def pyStartsWith (s pat : String) : Bool := pat.data.isPrefixOf s.data

/-- A raised Python exception, as observed by `except` blocks: the class
name (`type(e).__name__`) and the message (`str(e)`). -/
structure PyError where
  typeName : String
  msg : String
  deriving Repr, DecidableEq

/-! Section: Data model: Firestore documents (`app/services/firestore_service.py`) -/

/-- One document of the per-user `statements` collection.  Every field is
optional, mirroring the schemaless Firestore documents written with
`set(merge=True)`: `none` is a field that is absent (or explicitly
`None`; no claim distinguishes the two).  The date fields hold the raw
`YYYY-MM-DD` strings delivered by extraction; the source converts them
to datetimes via `_parse_date`, a conversion no claim observes.
`processedAt` holds an abstract timestamp. -/
structure StatementDoc where
  cardProvider : Option String
  billingMonth : Option String
  statementDate : Option String
  dueDate : Option String
  billingPeriodFrom : Option String
  billingPeriodTo : Option String
  totalAmountDue : Option ℚ
  minPaymentDue : Option ℚ
  currency : Option String
  gmailMessageId : Option String
  status : Option String
  processedAt : Option Nat
  errorReason : Option String
  deriving Repr, DecidableEq

/-- The all-fields-absent statement document (the merge base for a
`set(merge=True)` on a document that does not exist yet). -/
def emptyStatementDoc : StatementDoc :=
  ⟨none, none, none, none, none, none, none, none, none, none, none, none, none⟩

/-- One document of the per-user `transactions` collection, as written by
`_process_message` and read back by the chat tools via `dict.get`. -/
structure TxDoc where
  cardProvider : Option String
  statementId : Option String
  date : Option String
  billingMonth : Option String
  description : Option String
  amount : Option ℚ
  currency : Option String
  debitOrCredit : Option String
  category : Option String
  createdAt : Option Nat
  deriving Repr, DecidableEq

/-- The per-user slice of the document store: the `statements` collection
(an association list keyed by document id) and the `transactions`
collection (auto-generated ids, so just the ordered documents). -/
structure Store where
  statements : List (String × StatementDoc)
  transactions : List TxDoc
  deriving Repr, DecidableEq

def emptyStore : Store := ⟨[], []⟩

/-- Lookup of a document by id in a keyed collection. -/
def assocFind (l : List (String × StatementDoc)) (id : String) : Option StatementDoc :=
  match l with
  | [] => none
  | (k, d) :: tl => if k == id then some d else assocFind tl id

/-- Update of the document with the given id (`f` applied to it), or
append of a fresh document built from the empty merge base when the id
is not present. -/
def upsertList (l : List (String × StatementDoc)) (id : String)
    (f : StatementDoc → StatementDoc) : List (String × StatementDoc) :=
  match l with
  | [] => [(id, f emptyStatementDoc)]
  | (k, d) :: tl => if k == id then (k, f d) :: tl else (k, d) :: upsertList tl id f

/-- Removal of the document with the given id. -/
def deleteList (l : List (String × StatementDoc)) (id : String) :
    List (String × StatementDoc) :=
  match l with
  | [] => []
  | (k, d) :: tl => if k == id then deleteList tl id else (k, d) :: deleteList tl id

/-- Firestore `get` of a statement document (`get_statement`). -/
def get_statement (s : Store) (id : String) : Option StatementDoc :=
  assocFind s.statements id

/-- Firestore `document(id).set(fields, merge=True)` on the statements
collection (`upsert_statement`): `f` applies the written fields to the
existing document, or to the empty document when the id is new. -/
def upsert_statement (s : Store) (id : String) (f : StatementDoc → StatementDoc) : Store :=
  { s with statements := upsertList s.statements id f }

/-- Firestore `document(id).delete()` on the statements collection
(`delete_statement`); deleting an absent document is a no-op. -/
def delete_statement (s : Store) (id : String) : Store :=
  { s with statements := deleteList s.statements id }

/-- Query `where gmailMessageId == id` and `where status == "processed"`,
non-empty check (`statement_exists_by_gmail_id`; the `limit(1)` does not
affect the boolean). -/
def statement_exists_by_gmail_id (s : Store) (gmailMessageId : String) : Bool :=
  s.statements.any (fun p =>
    p.2.gmailMessageId == some gmailMessageId && p.2.status == some "processed")

/-- Batched transaction insert (`batch_add_transactions`).  The source
chunks at 500 documents per Firestore batch; the chunked commits append
the documents in order, so the semantic effect is a single append. -/
def batch_add_transactions (s : Store) (txs : List TxDoc) : Store :=
  { s with transactions := s.transactions ++ txs }

/-! Section: Data model: extraction output (`app/models/statement.py`) -/

/-- Model of `GeminiTransaction` (pydantic): one extracted transaction row. -/
structure GeminiTransaction where
  date : String
  description : String
  amount : ℚ
  debit_or_credit : String
  category : String
  deriving Repr, DecidableEq

/-- Model of `GeminiStatementOutput` (pydantic): the structured extraction result.
All string fields are required by the schema but may be empty strings. -/
structure GeminiStatementOutput where
  statement_date : String
  billing_period_from : String
  billing_period_to : String
  due_date : String
  total_amount_due : ℚ
  min_payment_due : ℚ
  currency : String
  transactions : List GeminiTransaction
  deriving Repr, DecidableEq

/-! Section: External-service oracles -/

/-- The external collaborators consumed by the sync pipeline, as oracles.
A deterministic `Env` models an unchanged mailbox / unchanged external
world across runs. -/
structure Env where
  /-- Model of `auth_service.decrypt`: symmetric secret decryption; raises on bad
  ciphertext. -/
  decryptSecret : String → Except PyError String
  /-- Model of `gmail_service.search_messages refresh_token query`: the matching
  message ids (auto-paginated). -/
  searchMessages : String → String → List String
  /-- Model of `gmail_service.get_pdf_attachment refresh_token msg_id`: `none`
  when the message has no PDF-named part, or `(filename, bytes)`. -/
  getPdfAttachment : String → String → Except PyError (Option (String × Nat))
  /-- Model of `pikepdf.open(..., password=...)` followed by `save`: the decrypted
  bytes, or the library error. -/
  pikepdfOpen : Nat → String → Except PyError Nat
  /-- Model of `pdfplumber` page-text extraction: the per-page text layers, or
  `none` when the library raises. -/
  pdfplumberPages : Nat → Option (List String)
  /-- Model of `gemini_service.extract_statement`: the parsed structured output,
  or `None` on any call/parse/validation failure (that function catches
  all of its own exceptions). -/
  gemini : Nat → Option GeminiStatementOutput
  /-- Timestamp oracle for `datetime.now`. -/
  now : Nat

/-- Recorded consultations of the side-effecting external services. -/
inductive Eff where
  | searchGmail (query : String)
  | downloadAttachment (msgId : String)
  | openPdf (pdfBytes : Nat)
  | readTextLayer (pdfBytes : Nat)
  | extractWithGemini (pdfBytes : Nat)
  deriving Repr, DecidableEq

/-! Section: PDF gate (`app/services/pdf_service.py`) -/

/-- Failure modes of `decrypt_pdf`: `WrongPasswordError` or the re-raised
library error. -/
inductive DecryptError where
  | wrongPassword (msg : String)
  | other (e : PyError)
  deriving Repr, DecidableEq

/-- The wrong-password classification in `decrypt_pdf`'s `except` block:
`"password" in str(e).lower() or "PasswordError" in type(e).__name__ or
"incorrect" in str(e).lower()`. -/
def isPasswordSignal (e : PyError) : Bool :=
  pyContains (pyLower e.msg) "password" ||
  pyContains e.typeName "PasswordError" ||
  pyContains (pyLower e.msg) "incorrect"

/-- Model of `decrypt_pdf(pdf_bytes, password)`: on a library error matching the
password signal raise `WrongPasswordError`, otherwise re-raise. -/
def decrypt_pdf (env : Env) (pdfBytes : Nat) (password : String) : Except DecryptError Nat :=
  match env.pikepdfOpen pdfBytes password with
  | .ok decrypted => .ok decrypted
  | .error e =>
    if isPasswordSignal e then .error (.wrongPassword e.msg)
    else .error (.other e)

/-- Model of `extract_text_fallback(pdf_bytes)`: join the page text layers with
newlines; return the empty string when pdfplumber raises. -/
def extract_text_fallback (env : Env) (pdfBytes : Nat) : String :=
  match env.pdfplumberPages pdfBytes with
  | some pages => String.intercalate "\n" pages
  | none => ""

/-- Model of `is_readable(pdf_bytes, min_chars)`: enough stripped extractable text
(`len(text.strip()) >= min_chars`); the pipeline calls it with the
default `min_chars = 100`. -/
def is_readable (env : Env) (pdfBytes : Nat) (minChars : Nat) : Bool :=
  minChars ≤ (pyStrip (extract_text_fallback env pdfBytes)).length

/-! Section: Sync pipeline (`app/services/sync_service.py`) -/

/-- The `results` accumulator of one sync job. -/
structure SyncResults where
  processed : Nat
  skipped : Nat
  failed : Nat
  errors : List String
  deriving Repr, DecidableEq

def emptyResults : SyncResults := ⟨0, 0, 0, []⟩

/-- The evolving state of one sync run: the store, the job results, and
the trace of external consultations. -/
structure SyncState where
  store : Store
  results : SyncResults
  trace : List Eff
  deriving Repr, DecidableEq

/-- One configured card provider, as the pipeline reads it from its
Firestore document via `dict.get` (an empty string models an absent or
empty field, matching Python truthiness checks). -/
structure Provider where
  id : String
  name : String
  encryptedPassword : String
  emailSenderPattern : String
  subjectKeyword : String
  deriving Repr, DecidableEq

/-- The provisional-statement id `f"{provider_id}_processing_{msg_id[:8]}"`. -/
def tempIdOf (providerId msgId : String) : String :=
  providerId ++ "_processing_" ++ pyTake msgId 8

/-- Fields written by the provisional `upsert_statement` at the start of
per-message work (`status="processing"`, `processedAt=None`). -/
def provisionalFields (providerId msgId : String) (d : StatementDoc) : StatementDoc :=
  { d with cardProvider := some providerId, gmailMessageId := some msgId,
           status := some "processing", processedAt := none }

/-- Fields written when a message is converted to a terminal failure
(`status="failed"` with the given `errorReason`). -/
def failFields (reason : String) (d : StatementDoc) : StatementDoc :=
  { d with status := some "failed", errorReason := some reason }

/-- A terminal failure with a specific machine-readable reason (the
wrong-password / scanned-PDF / extraction-failure branches): convert the
provisional record, bump `failed`, append the human-readable error. -/
def specificFailure (tempId reason errEntry : String) (st : SyncState) : SyncState :=
  let results := { st.results with
    failed := st.results.failed + 1, errors := st.results.errors ++ [errEntry] }
  { st with store := upsert_statement st.store tempId (failFields reason), results := results }

/-- The catch-all `except` at the bottom of `_process_message`: convert
the provisional record to `failed` with the error string truncated to
200 characters, bump `failed`, append the error truncated to 100. -/
def genericFailure (providerId msgId tempId errMsg : String) (st : SyncState) : SyncState :=
  let entry := providerId ++ "/" ++ pyTake msgId 8 ++ ": " ++ pyTake errMsg 100
  let results := { st.results with
    failed := st.results.failed + 1, errors := st.results.errors ++ [entry] }
  { st with store := upsert_statement st.store tempId (failFields (pyTake errMsg 200)),
            results := results }

/-- Python truthiness test `existing and existing.get("status") == "processed"`. -/
def isProcessedDoc : Option StatementDoc → Bool
  | some d => d.status == some "processed"
  | none => false

/-- The final write on the success path: upsert the final statement
(status `processed`), delete the provisional record, batch-insert the
transactions, bump `processed`.  The debit-sum cross-check at lines
321–332 of `sync_service.py` only emits a log line and is therefore not
modelled. -/
def writeFinal (providerId msgId tempId billingMonth finalId : String)
    (extracted : GeminiStatementOutput) (now : Nat) (st : SyncState) : SyncState :=
  let stmtFields : StatementDoc → StatementDoc := fun d =>
    { d with cardProvider := some providerId,
             billingMonth := some billingMonth,
             statementDate := some extracted.statement_date,
             dueDate := some extracted.due_date,
             billingPeriodFrom := some extracted.billing_period_from,
             billingPeriodTo := some extracted.billing_period_to,
             totalAmountDue := some extracted.total_amount_due,
             minPaymentDue := some extracted.min_payment_due,
             currency := some extracted.currency,
             gmailMessageId := some msgId,
             status := some "processed",
             processedAt := some now,
             errorReason := none }
  let store := upsert_statement st.store finalId stmtFields
  let store := delete_statement store tempId
  let txs := extracted.transactions.map (fun tx =>
    { cardProvider := some providerId, statementId := some finalId,
      date := some tx.date, billingMonth := some billingMonth,
      description := some tx.description, amount := some tx.amount,
      currency := some extracted.currency, debitOrCredit := some tx.debit_or_credit,
      category := some tx.category, createdAt := some now : TxDoc })
  let store := batch_add_transactions store txs
  { st with store := store,
            results := { st.results with processed := st.results.processed + 1 } }

/-- The pipeline from successful extraction onward: derive the billing
month (`billing_period_to[:7]`) and final id, late-duplicate check,
final write. -/
def afterExtraction (providerId msgId tempId : String) (now : Nat)
    (extracted : GeminiStatementOutput) (st : SyncState) : SyncState :=
  if extracted.billing_period_to = "" then
    specificFailure tempId "missing_billing_period_to"
      (providerId ++ "/" ++ pyTake msgId 8 ++ ": Gemini did not return billing_period_to") st
  else
    let billingMonth := pyTake extracted.billing_period_to 7
    let finalId := providerId ++ "_" ++ billingMonth
    if isProcessedDoc (get_statement st.store finalId) then
      { st with store := delete_statement st.store tempId,
                results := { st.results with skipped := st.results.skipped + 1 } }
    else
      writeFinal providerId msgId tempId billingMonth finalId extracted now st

/-- The pipeline from decrypted bytes onward: readability gate, Gemini
extraction, then `afterExtraction`. -/
def afterDecrypt (env : Env) (providerId msgId tempId : String) (pdfBytes : Nat)
    (st : SyncState) : SyncState :=
  let st := { st with trace := st.trace ++ [Eff.readTextLayer pdfBytes] }
  if ¬ is_readable env pdfBytes 100 then
    specificFailure tempId "scanned_pdf_unsupported"
      (providerId ++ "/" ++ pyTake msgId 8 ++ ": scanned PDF — OCR not yet supported") st
  else
    let st := { st with trace := st.trace ++ [Eff.extractWithGemini pdfBytes] }
    match env.gemini pdfBytes with
    | none =>
      specificFailure tempId "gemini_extraction_failed"
        (providerId ++ "/" ++ pyTake msgId 8 ++ ": Gemini extraction failed") st
    | some extracted => afterExtraction providerId msgId tempId env.now extracted st

/-- The `try` body of `_process_message`: download the attachment,
decrypt when a password is configured, then `afterDecrypt`.  A modelled
raised exception is routed to `genericFailure` (the catch-all), except
`WrongPasswordError` from the decrypt step, which has its own handler. -/
def processMessageBody (env : Env) (refreshToken providerId msgId pdfPassword tempId : String)
    (st : SyncState) : SyncState :=
  let st := { st with trace := st.trace ++ [Eff.downloadAttachment msgId] }
  match env.getPdfAttachment refreshToken msgId with
  | .error e => genericFailure providerId msgId tempId e.msg st
  | .ok none => genericFailure providerId msgId tempId "No PDF attachment found in email" st
  | .ok (some (_filename, pdfBytes)) =>
    if pdfPassword ≠ "" then
      let st := { st with trace := st.trace ++ [Eff.openPdf pdfBytes] }
      match decrypt_pdf env pdfBytes pdfPassword with
      | .error (.wrongPassword _) =>
        specificFailure tempId "wrong_password"
          (providerId ++ ": wrong PDF password — update it in card settings") st
      | .error (.other e) => genericFailure providerId msgId tempId e.msg st
      | .ok decrypted => afterDecrypt env providerId msgId tempId decrypted st
    else
      afterDecrypt env providerId msgId tempId pdfBytes st

/-- Model of `_process_message`: idempotency check, provisional record, `try`
body with failure conversion. -/
def process_message (env : Env) (refreshToken providerId msgId pdfPassword : String)
    (st : SyncState) : SyncState :=
  if statement_exists_by_gmail_id st.store msgId then
    { st with results := { st.results with skipped := st.results.skipped + 1 } }
  else
    let tempId := tempIdOf providerId msgId
    let st := { st with store := upsert_statement st.store tempId (provisionalFields providerId msgId) }
    processMessageBody env refreshToken providerId msgId pdfPassword tempId st

/-- The Gmail search query built from the provider configuration
(lines 108–127 of `sync_service.py`); a missing sender pattern or
subject keyword only logs a warning and widens the query. -/
def buildQuery (p : Provider) : String :=
  let parts := ["has:attachment", "filename:pdf"]
  let parts :=
    if p.emailSenderPattern ≠ "" then
      let sender :=
        if pyStartsWith p.emailSenderPattern "@" then "*" ++ p.emailSenderPattern
        else p.emailSenderPattern
      parts ++ ["from:" ++ sender]
    else parts
  let parts :=
    if p.subjectKeyword ≠ "" then parts ++ ["subject:\"" ++ p.subjectKeyword ++ "\""]
    else parts
  String.intercalate " " parts

/-- Model of `_process_provider`: decrypt the stored PDF password (a decrypt
failure only logs and leaves the password empty), search Gmail, and
process every matching message in order. -/
def process_provider (env : Env) (refreshToken : String) (p : Provider)
    (st : SyncState) : SyncState :=
  let pdfPassword :=
    if p.encryptedPassword ≠ "" then
      match env.decryptSecret p.encryptedPassword with
      | .ok pw => pw
      | .error _ => ""
    else ""
  let query := buildQuery p
  let st := { st with trace := st.trace ++ [Eff.searchGmail query] }
  let messages := env.searchMessages refreshToken query
  if messages.isEmpty then st
  else messages.foldl (fun s m => process_message env refreshToken p.id m pdfPassword s) st

/-- The user document fields read by `run_sync` (an empty refresh token
models an absent field). -/
structure User where
  gmailConnected : Bool
  gmailRefreshToken : String
  deriving Repr, DecidableEq

/-- The terminal job status written by `run_sync`. -/
inductive RunOutcome where
  | jobFailed (reason : String)
  | jobDone (results : SyncResults)
  deriving Repr, DecidableEq

/-- Model of `run_sync`: precondition checks (each a hard stop with a distinct
error reason), then the provider loop, then job completion.  The
modelled store operations are total, so the job-level catch-all for
unexpected errors is unreachable here; `lastSyncAt` bookkeeping on the
user document is not observed by any claim and not modelled. -/
def run_sync (env : Env) (user : User) (providers : List Provider) (store : Store) :
    SyncState × RunOutcome :=
  let st0 : SyncState := ⟨store, emptyResults, []⟩
  if ¬ user.gmailConnected then (st0, .jobFailed "gmail_not_connected")
  else if user.gmailRefreshToken = "" then (st0, .jobFailed "no_refresh_token")
  else
    match env.decryptSecret user.gmailRefreshToken with
    | .error _ => (st0, .jobFailed "refresh_token_decrypt_failed")
    | .ok refreshToken =>
      if providers.isEmpty then (st0, .jobFailed "no_cards_configured")
      else
        let final := providers.foldl (fun s p => process_provider env refreshToken p s) st0
        (final, .jobDone final.results)

/-! Section: Chat tools (`app/services/chat_agent_service.py`) -/

/-- Association-list lookup (the read side of a Python dict that
preserves insertion order). -/
def lookupAssoc {α : Type} : List (String × α) → String → Option α
  | [], _ => none
  | (k, v) :: tl, key => if k == key then some v else lookupAssoc tl key

/-- Model of `defaultdict(float)` update `d[k] += v`: add in place when the key
exists, else append with initial value `0.0 + v` (a dict holds one
entry per key). -/
def bumpAssoc : List (String × ℚ) → String → ℚ → List (String × ℚ)
  | [], k, a => [(k, a)]
  | (k', v') :: tl, k, a =>
    if k' == k then (k', v' + a) :: tl else (k', v') :: bumpAssoc tl k a

/-- Plain dict assignment `d[k] = v` with insertion-order preservation. -/
def setAssoc {α : Type} : List (String × α) → String → α → List (String × α)
  | [], k, v => [(k, v)]
  | (k', v') :: tl, k, v =>
    if k' == k then (k', v) :: tl else (k', v') :: setAssoc tl k v

/-- Model of `get_transactions_for_months`: one equality query per requested
month, results concatenated in request order. -/
def get_transactions_for_months (txStore : List TxDoc) (billingMonths : List String) :
    List TxDoc :=
  billingMonths.foldl
    (fun acc month => acc ++ txStore.filter (fun t => t.billingMonth == some month)) []

/-- Python `round(x, 2)` on the modelled exact rationals: round the
value scaled by 100 to the nearest integer and scale back.  (The source
rounds binary floats half-to-even; no claim exercises a tie or a float
representation artefact, so exact rounding of the scaled value is used.) -/
def round2 (q : ℚ) : ℚ := Rat.divInt (Rat.floor (q * 100 + Rat.divInt 1 2)) 100

/-- The per-month aggregate produced by `_execute_get_spending_summary`. -/
structure MonthSummary where
  total : ℚ
  by_card : List (String × ℚ)
  by_category : List (String × ℚ)
  transaction_count : Nat
  deriving Repr, DecidableEq

/-- The mutable accumulators of the per-month aggregation loop. -/
structure SpendAcc where
  total : ℚ
  by_card : List (String × ℚ)
  by_category : List (String × ℚ)
  deriving Repr, DecidableEq

/-- One iteration of the aggregation loop: debit transactions contribute
their amount to the running total and to the category and card buckets
(`dict.get` defaults: amount `0.0`, category `"Other"`, card
`"unknown"`); credit rows are ignored. -/
def spendStep (acc : SpendAcc) (tx : TxDoc) : SpendAcc :=
  if tx.debitOrCredit == some "debit" then
    let amount := tx.amount.getD 0
    { total := acc.total + amount,
      by_card := bumpAssoc acc.by_card (tx.cardProvider.getD "unknown") amount,
      by_category := bumpAssoc acc.by_category (tx.category.getD "Other") amount }
  else acc

/-- Abstraction of one bucket accumulator of the aggregation loop
(`by_category` with `key = category or "Other"`, `by_card` with
`key = cardProvider or "unknown"`): debit rows bump the bucket of their
key.  Used to characterise the two breakdowns of `spendStep` folds. -/
def bumpFold (key : TxDoc → String) (txs : List TxDoc)
    (l : List (String × ℚ)) : List (String × ℚ) :=
  txs.foldl (fun l t =>
    if t.debitOrCredit == some "debit" then bumpAssoc l (key t) (t.amount.getD 0)
    else l) l

/-- The body of the `for month in billing_months` loop: filter the
fetched transactions to the month, aggregate, round to 2 decimals. -/
def summarizeMonth (transactions : List TxDoc) (month : String) : MonthSummary :=
  let monthTxs := transactions.filter (fun t => t.billingMonth == some month)
  let acc := monthTxs.foldl spendStep ⟨0, [], []⟩
  { total := round2 acc.total,
    by_card := acc.by_card.map (fun p => (p.1, round2 p.2)),
    by_category := acc.by_category.map (fun p => (p.1, round2 p.2)),
    transaction_count := monthTxs.length }

/-- Model of `_execute_get_spending_summary`: fetch all transactions for the
requested months, then build `spend_data[month]` for each requested
month.  The `group_by` argument is read by the source but not used in
its body (both breakdowns are always produced); it is kept here for
fidelity.  The JSON serialization of the result is not modelled. -/
def execute_get_spending_summary (txStore : List TxDoc) (billingMonths : List String)
    (_groupBy : String) : List (String × MonthSummary) :=
  let transactions := get_transactions_for_months txStore billingMonths
  billingMonths.foldl (fun sd month => setAssoc sd month (summarizeMonth transactions month)) []

/-! Section: History reconstruction and agent loop (`app/services/chat_agent_service.py`) -/

/-- Opaque tool-call arguments (a JSON object payload); the loop and the
history reconstruction only pass them through. -/
abbrev ToolArgs := List (String × String)

/-- One recorded tool call on a persisted assistant message
(`{name, arguments, result}`; the loop always records the compact
summary string as `result`). -/
structure ToolCallRec where
  name : String
  arguments : ToolArgs
  result : Option String
  deriving Repr, DecidableEq

/-- One persisted chat message as stored in Firestore. -/
structure StoredMessage where
  role : String
  content : Option String
  toolCalls : Option (List ToolCallRec)
  deriving Repr, DecidableEq

/-- One part of a Gemini content turn: at most one of a function call,
a function response (name and payload string), or text. -/
structure GeminiPart where
  functionCall : Option (String × ToolArgs)
  functionResponse : Option (String × String)
  text : Option String
  deriving Repr, DecidableEq

def textPart (s : String) : GeminiPart := ⟨none, none, some s⟩

def functionCallPart (name : String) (args : ToolArgs) : GeminiPart := ⟨some (name, args), none, none⟩

def functionResponsePart (name result : String) : GeminiPart := ⟨none, some (name, result), none⟩

/-- One Gemini conversation turn (`types.Content`). -/
structure GeminiContent where
  role : String
  parts : List GeminiPart
  deriving Repr, DecidableEq

/-- The body of the `for tc in tool_calls` loop of
`_build_contents_from_history`: append the model function-call turn,
then the user function-response turn when a result is recorded. -/
def toolCallTurnStep (cs : List GeminiContent) (tc : ToolCallRec) : List GeminiContent :=
  let cs := cs ++ [⟨"model", [functionCallPart tc.name tc.arguments]⟩]
  match tc.result with
  | some r => cs ++ [⟨"user", [functionResponsePart tc.name r]⟩]
  | none => cs

/-- The body of the `for msg in history` loop of
`_build_contents_from_history`.  Messages with a role other than
`user`/`assistant` contribute nothing (the computed `gemini_role` is
unused in the source). -/
def historyStep (contents : List GeminiContent) (msg : StoredMessage) : List GeminiContent :=
  if msg.role = "user" then
    contents ++ [⟨"user", [textPart (msg.content.getD "")]⟩]
  else if msg.role = "assistant" then
    let contents := (msg.toolCalls.getD []).foldl toolCallTurnStep contents
    if msg.content.getD "" ≠ "" then
      contents ++ [⟨"model", [textPart (msg.content.getD "")]⟩]
    else contents
  else contents

/-- Model of `_build_contents_from_history`: replay persisted messages into
model-native turns.  A user message becomes one user text turn; an
assistant message contributes, for each recorded tool call, one model
function-call turn and — when a result is recorded — one user
function-response turn, then one model text turn when the content is
truthy (non-empty). -/
def build_contents_from_history (history : List StoredMessage) : List GeminiContent :=
  history.foldl historyStep []

/-- The events yielded by `run_agent_stream` (the SSE wire encoding of
each event is not modelled; the `message` event carries the final text
and the collected tool-call records, as the source's payload does). -/
inductive AgentEvent where
  | toolCall (name : String) (args : ToolArgs)
  | toolResult (name : String) (summary : String)
  | message (content : Option String) (toolCalls : List ToolCallRec)
  | done
  | error (msg : String)
  deriving Repr, DecidableEq

/-- One model response (the single candidate's content parts). -/
structure ModelResponse where
  parts : List GeminiPart
  deriving Repr, DecidableEq

/-- The external collaborators of the agent loop: the model (a function
of the conversation so far), the tool executors (total: the source
catches executor exceptions and returns an error-JSON string), and the
compact result summarizer (`_summarize_result`, whose JSON parsing is
treated as an oracle). -/
structure AgentEnv where
  model : List GeminiContent → ModelResponse
  execute : String → ToolArgs → String
  summarize : String → String → String

/-- The names registered in `_TOOL_EXECUTORS`. -/
def knownTools : List String :=
  ["search_transactions", "get_spending_summary", "get_statements", "list_card_providers"]

/-- Model of `json.dumps` of the unknown-tool error payload. -/
def jsonErrorUnknown (name : String) : String :=
  "\x7b\"error\": \"Unknown tool: " ++ name ++ "\"\x7d"

/-- The degraded final message on cap exhaustion. -/
def maxIterationsMessage : String :=
  "I\x27ve reached the maximum number of tool calls. Here\x27s what I found so far."

/-- The running state of one loop iteration's part-processing `for`:
events yielded so far, the conversation, and `collected_tool_calls`. -/
structure LoopAcc where
  events : List AgentEvent
  contents : List GeminiContent
  collected : List ToolCallRec
  deriving Repr

/-- Processing of one response part inside an iteration: parts without a
function call are skipped; a function-call part yields `tool_call`,
executes the tool (unknown names produce the error JSON), yields
`tool_result` with the compact summary, records the call, and appends
the function-call and function-response turns to the conversation. -/
def handlePart (env : AgentEnv) (acc : LoopAcc) (part : GeminiPart) : LoopAcc :=
  match part.functionCall with
  | none => acc
  | some (toolName, toolArgs) =>
    let result :=
      if knownTools.contains toolName then env.execute toolName toolArgs
      else jsonErrorUnknown toolName
    let summary := env.summarize toolName result
    { events := acc.events ++ [.toolCall toolName toolArgs, .toolResult toolName summary],
      contents := acc.contents ++
        [⟨"model", [functionCallPart toolName toolArgs]⟩,
         ⟨"user", [functionResponsePart toolName result]⟩],
      collected := acc.collected ++ [⟨toolName, toolArgs, some summary⟩] }

/-- The final-answer text: `parts[0].text if parts else ""`. -/
def finalText : List GeminiPart → Option String
  | [] => some ""
  | p :: _ => p.text

/-- The bounded iteration of `for iteration in range(10)`: each round
submits the conversation to the model (counted), executes any
function-call parts, and either recurses or emits the final `message`
and `done`; exhausted fuel is the `max_iterations_reached` path.
Returns the yielded events and the number of model calls made. -/
def agentLoop (env : AgentEnv) (fuel : Nat) (contents : List GeminiContent)
    (collected : List ToolCallRec) (calls : Nat) : List AgentEvent × Nat :=
  match fuel with
  | 0 => ([.message (some maxIterationsMessage) collected, .done], calls)
  | fuel + 1 =>
    let resp := env.model contents
    if resp.parts.any (fun p => p.functionCall.isSome) then
      let acc := resp.parts.foldl (handlePart env) ⟨[], contents, collected⟩
      let rest := agentLoop env fuel acc.contents acc.collected (calls + 1)
      (acc.events ++ rest.1, rest.2)
    else
      ([.message (finalText resp.parts) collected, .done], calls + 1)

/-- Model of `run_agent_stream`: rebuild the conversation from history, append
the new user message, and run the capped loop.  The modelled
collaborators are total, so the enclosing `except` (one `error` event)
is unreachable here. -/
def run_agent_stream (env : AgentEnv) (userMessage : String)
    (history : List StoredMessage) : List AgentEvent × Nat :=
  let contents := build_contents_from_history history ++ [⟨"user", [textPart userMessage]⟩]
  agentLoop env 10 contents [] 0

/-! Section: Derived notions used by the stated properties -/

/-- Total number of messages found across all providers in one run. -/
def totalMessages (env : Env) (refreshToken : String) (providers : List Provider) : Nat :=
  (providers.map (fun p => (env.searchMessages refreshToken (buildQuery p)).length)).sum

/-- Well-formedness of the statement store: document ids are unique
(Firestore guarantees one document per id). -/
def StoreWF (s : Store) : Prop := (s.statements.map Prod.fst).Nodup

/-- Every processed statement lives under its canonical id
`{card_provider_id}_{billing_month}`. -/
def CanonicalProcessed (s : Store) : Prop :=
  ∀ e ∈ s.statements, e.2.status = some "processed" →
    ∃ p m, e.2.cardProvider = some p ∧ e.2.billingMonth = some m ∧ e.1 = p ++ "_" ++ m

/-- The store invariant maintained by the pipeline: unique document ids
and canonical ids for processed statements. -/
def StoreInv (s : Store) : Prop := StoreWF s ∧ CanonicalProcessed s

/-- Number of processed statements stored for a (provider, billing
month) pair. -/
def processedCount (s : Store) (p m : String) : Nat :=
  (s.statements.filter (fun e =>
    e.2.status == some "processed" && e.2.cardProvider == some p &&
    e.2.billingMonth == some m)).length

/-- One call bumped exactly one of the three counters by exactly one and
left the other two unchanged. -/
def BumpsOne (r r' : SyncResults) : Prop :=
  (r'.processed = r.processed + 1 ∧ r'.skipped = r.skipped ∧ r'.failed = r.failed) ∨
  (r'.processed = r.processed ∧ r'.skipped = r.skipped + 1 ∧ r'.failed = r.failed) ∨
  (r'.processed = r.processed ∧ r'.skipped = r.skipped ∧ r'.failed = r.failed + 1)

/-- The configuration of one sync invocation. -/
structure RunCfg where
  env : Env
  user : User
  providers : List Provider

/-- The store left behind by one sync run. -/
def applyRun (s : Store) (c : RunCfg) : Store :=
  ((run_sync c.env c.user c.providers s).1).store

/-- The store after a sequence of sync runs. -/
def applyRuns (runs : List RunCfg) (s : Store) : Store := runs.foldl applyRun s

/-- Reading of the history-reconstruction property as the spec words it:
a user message becomes one user text turn; an assistant message becomes
one function-call turn plus one function-response turn per recorded
call, in original order, followed by a model text turn if content is
present.  Compared against `build_contents_from_history`. -/
def specTurnsOfMessage (msg : StoredMessage) : List GeminiContent :=
  if msg.role = "user" then
    [⟨"user", [textPart (msg.content.getD "")]⟩]
  else if msg.role = "assistant" then
    ((msg.toolCalls.getD []).flatMap (fun tc =>
      [⟨"model", [functionCallPart tc.name tc.arguments]⟩,
       ⟨"user", [functionResponsePart tc.name (tc.result.getD "")]⟩]))
    ++ (if msg.content.getD "" ≠ "" then [⟨"model", [textPart (msg.content.getD "")]⟩] else [])
  else []

/-- The debit transactions of one billing month. -/
def specDebitTxsOfMonth (txStore : List TxDoc) (month : String) : List TxDoc :=
  txStore.filter (fun t => t.billingMonth == some month && t.debitOrCredit == some "debit")

/-- Sum of the (dict-read) amounts of a transaction list. -/
def sumAmounts (l : List TxDoc) : ℚ := (l.map (fun t => t.amount.getD 0)).sum

/-- Reading of the spending-summary property as the spec words it: the
per-month total aggregates that month's debit transactions only,
rounded to 2 decimals.  Compared against `execute_get_spending_summary`. -/
def specMonthTotal (txStore : List TxDoc) (month : String) : ℚ :=
  round2 (sumAmounts (specDebitTxsOfMonth txStore month))

/-- Expected per-category breakdown entry: the rounded sum of the
month's debit transactions in that category (`none` when the month has
no debit transaction in the category). -/
def specCategoryTotal (txStore : List TxDoc) (month cat : String) : Option ℚ :=
  let l := (specDebitTxsOfMonth txStore month).filter (fun t => t.category.getD "Other" == cat)
  if l.isEmpty then none else some (round2 (sumAmounts l))

/-- Expected per-card breakdown entry, analogous to
`specCategoryTotal`. -/
def specCardTotal (txStore : List TxDoc) (month card : String) : Option ℚ :=
  let l := (specDebitTxsOfMonth txStore month).filter (fun t => t.cardProvider.getD "unknown" == card)
  if l.isEmpty then none else some (round2 (sumAmounts l))

/-! Section: Concrete scenarios used to instantiate the stated properties -/

/-- An extracted text layer comfortably above the 100-character
readability threshold. -/
def longText : String := String.join (List.replicate 10 "0123456789")

/-- The initial state of a fresh sync run over an empty store. -/
def stEmpty : SyncState := ⟨emptyStore, emptyResults, []⟩

def envC1 : Env :=
  { decryptSecret := fun s => .ok s,
    searchMessages := fun _ _ => ["msgAAAAAAAA"],
    getPdfAttachment := fun _ _ => .ok (some ("stmt.pdf", 1)),
    pikepdfOpen := fun _ _ => .error ⟨"PasswordError", "invalid password"⟩,
    pdfplumberPages := fun _ => some ["short"],
    gemini := fun _ => none,
    now := 7 }

def userC1 : User := ⟨true, "tok"⟩

def provC1 : Provider := ⟨"hdfc", "HDFC", "enc", "@hdfcbank.com", "statement"⟩

def processedDocC1 : StatementDoc :=
  { emptyStatementDoc with cardProvider := some "hdfc", billingMonth := some "2024-01",
                           gmailMessageId := some "msgAAAAAAAA", status := some "processed" }

def storeC1 : Store := ⟨[("hdfc_2024-01", processedDocC1)], []⟩

def outC2 : GeminiStatementOutput :=
  ⟨"2024-01-25", "2023-12-21", "2024-01-20", "2024-02-10", 130, 10, "INR", []⟩

def envC2 : Env :=
  { decryptSecret := fun s => .ok s,
    searchMessages := fun _ _ => ["msgBBBBBBBB"],
    getPdfAttachment := fun _ _ => .ok (some ("stmt.pdf", 1)),
    pikepdfOpen := fun b _ => .ok b,
    pdfplumberPages := fun _ => some [longText],
    gemini := fun _ => some outC2,
    now := 7 }

def processedDocC2 : StatementDoc :=
  { emptyStatementDoc with cardProvider := some "hdfc", billingMonth := some "2024-01",
                           gmailMessageId := some "msgAAAAAAAA", status := some "processed" }

def stC2 : SyncState := ⟨⟨[("hdfc_2024-01", processedDocC2)], []⟩, emptyResults, []⟩

def userC2 : User := ⟨true, "tok"⟩

def provC2 : Provider := ⟨"hdfc", "HDFC", "", "@hdfcbank.com", "statement"⟩

def outC3a : GeminiStatementOutput :=
  ⟨"2024-01-25", "2023-12-21", "2024-01-20", "2024-02-10", 100, 10, "INR",
   [⟨"2024-01-05", "Lunch", 100, "debit", "Food"⟩]⟩

def outC3b : GeminiStatementOutput :=
  ⟨"2024-02-25", "2024-01-21", "2024-02-20", "2024-03-10", 30, 10, "INR",
   [⟨"2024-02-07", "Cab", 30, "debit", "Travel"⟩]⟩

def envC3 : Env :=
  { decryptSecret := fun s => .ok s,
    searchMessages := fun _ _ => ["m1AAAAAAA", "m2BBBBBBB", "m3CCCCCCC"],
    getPdfAttachment := fun _ mid =>
      .ok (some ("stmt.pdf", if mid = "m1AAAAAAA" then 1 else if mid = "m2BBBBBBB" then 2 else 3)),
    pikepdfOpen := fun b _ =>
      if b = 2 then .error ⟨"PasswordError", "invalid password"⟩ else .ok (b + 10),
    pdfplumberPages := fun _ => some [longText],
    gemini := fun b => if b = 11 then some outC3a else if b = 13 then some outC3b else none,
    now := 7 }

def userC3 : User := ⟨true, "tok"⟩

def provC3 : Provider := ⟨"hdfc", "HDFC", "enc", "@hdfcbank.com", "statement"⟩

def envC3b : Env :=
  { envC3 with getPdfAttachment := fun _ _ => .error ⟨"HttpError", "network unreachable"⟩ }

def envC5 : Env :=
  { decryptSecret := fun s => .ok s,
    searchMessages := fun _ _ => ["msgAAAAAAAA"],
    getPdfAttachment := fun _ _ => .ok (some ("stmt.pdf", 1)),
    pikepdfOpen := fun _ _ => .error ⟨"PasswordError", "invalid password"⟩,
    pdfplumberPages := fun _ => some [longText],
    gemini := fun _ => none,
    now := 7 }

def envC5b : Env :=
  { envC5 with pikepdfOpen := fun _ _ => .error ⟨"ValueError", "corrupt data"⟩ }

def envC6 : Env :=
  { decryptSecret := fun s => .ok s,
    searchMessages := fun _ _ => ["msgAAAAAAAA"],
    getPdfAttachment := fun _ _ => .ok (some ("scan.pdf", 1)),
    pikepdfOpen := fun b _ => .ok b,
    pdfplumberPages := fun _ => some ["tiny"],
    gemini := fun _ => some outC2,
    now := 7 }

def outC9 : GeminiStatementOutput :=
  ⟨"2024-01-25", "2023-12-21", "", "2024-02-10", 130, 10, "INR", []⟩

def envC9 : Env :=
  { decryptSecret := fun s => .ok s,
    searchMessages := fun _ _ => ["msgAAAAAAAA"],
    getPdfAttachment := fun _ _ => .ok (some ("stmt.pdf", 1)),
    pikepdfOpen := fun b _ => .ok b,
    pdfplumberPages := fun _ => some [longText],
    gemini := fun _ => some outC9,
    now := 7 }

def envC9b : Env := { envC9 with gemini := fun _ => none }

def envC10 : Env := envC1

def userC10 : User := ⟨true, "tok"⟩

def provC10 : Provider := ⟨"hdfc", "HDFC", "", "@hdfcbank.com", "statement"⟩

def aenvC4all : AgentEnv :=
  { model := fun _ => ⟨[functionCallPart "get_statements" []]⟩,
    execute := fun n _ => n ++ "-result",
    summarize := fun n _ => n ++ "-summary" }

def aenvC4txt : AgentEnv :=
  { aenvC4all with model := fun _ => ⟨[textPart "the answer"]⟩ }

def histC7 : List StoredMessage :=
  [⟨"user", some "hi", none⟩,
   ⟨"assistant", some "ans", some [⟨"t1", [("a", "1")], some "r1"⟩, ⟨"t2", [], some "r2"⟩]⟩]

def txC8 (amt : ℚ) (dc cat : String) : TxDoc :=
  ⟨some "hdfc", some "hdfc_2024-01", some "2024-01-05", some "2024-01", some "x",
   some amt, some "INR", some dc, some cat, some 7⟩

def txsC8 : List TxDoc := [txC8 100 "debit" "Food", txC8 50 "credit" "Food", txC8 30 "debit" "Travel"]

/-! Section: Lemmas about the store operations -/

theorem transactions_upsert (s : Store) (id : String) (f : StatementDoc → StatementDoc) :
    (upsert_statement s id f).transactions = s.transactions := rfl

theorem transactions_delete (s : Store) (id : String) :
    (delete_statement s id).transactions = s.transactions := rfl

theorem assocFind_upsertList (l : List (String × StatementDoc)) (id id' : String)
    (f : StatementDoc → StatementDoc) :
    assocFind (upsertList l id f) id' =
      if id' = id then some (f ((assocFind l id).getD emptyStatementDoc))
      else assocFind l id' := by
  induction l with
  | nil =>
    by_cases hid : id' = id
    · subst hid
      simp [upsertList, assocFind]
    · simp [upsertList, assocFind, hid, Ne.symm hid]
  | cons hd tl ih =>
    rcases hd with ⟨k, d⟩
    by_cases hk : k = id
    · subst hk
      by_cases hid : id' = k
      · subst hid
        simp [upsertList, assocFind]
      · simp [upsertList, assocFind, hid, Ne.symm hid]
    · by_cases hid : id' = id
      · subst hid
        simp [upsertList, assocFind, hk, ih]
      · by_cases hk' : k = id' <;> simp [upsertList, assocFind, hk, hk', hid, ih]

theorem assocFind_deleteList (l : List (String × StatementDoc)) (id id' : String) :
    assocFind (deleteList l id) id' =
      if id' = id then none else assocFind l id' := by
  induction l with
  | nil => by_cases hid : id' = id <;> simp [deleteList, assocFind, hid]
  | cons hd tl ih =>
    rcases hd with ⟨k, d⟩
    by_cases hk : k = id
    · subst hk
      by_cases hid : id' = k
      · subst hid
        simp [deleteList, assocFind, ih]
      · simp [deleteList, assocFind, hid, Ne.symm hid, ih]
    · by_cases hk' : k = id' <;> by_cases hid : id' = id <;>
        simp_all [deleteList, assocFind]

theorem get_statement_upsert (s : Store) (id id' : String) (f : StatementDoc → StatementDoc) :
    get_statement (upsert_statement s id f) id' =
      if id' = id then some (f ((get_statement s id).getD emptyStatementDoc))
      else get_statement s id' :=
  assocFind_upsertList s.statements id id' f

theorem get_statement_delete (s : Store) (id id' : String) :
    get_statement (delete_statement s id) id' =
      if id' = id then none else get_statement s id' :=
  assocFind_deleteList s.statements id id'

theorem mem_upsertList {l : List (String × StatementDoc)} {id : String}
    {f : StatementDoc → StatementDoc} {e : String × StatementDoc}
    (h : e ∈ upsertList l id f) :
    e ∈ l ∨ (e.1 = id ∧ ∃ d, e.2 = f d) := by
  induction l with
  | nil =>
    simp only [upsertList, List.mem_singleton] at h
    subst h
    exact Or.inr ⟨rfl, emptyStatementDoc, rfl⟩
  | cons hd tl ih =>
    rcases hd with ⟨k, d⟩
    by_cases hk : k = id
    · subst hk
      simp only [upsertList, beq_self_eq_true, if_true, List.mem_cons] at h
      rcases h with h | h
      · subst h
        exact Or.inr ⟨rfl, d, rfl⟩
      · exact Or.inl (List.mem_cons_of_mem _ h)
    · simp only [upsertList, beq_iff_eq, hk, if_false, List.mem_cons] at h
      rcases h with h | h
      · subst h
        exact Or.inl (List.mem_cons_self _ _)
      · rcases ih h with h1 | h1
        · exact Or.inl (List.mem_cons_of_mem _ h1)
        · exact Or.inr h1

theorem mem_deleteList {l : List (String × StatementDoc)} {id : String}
    {e : String × StatementDoc} (h : e ∈ deleteList l id) : e ∈ l := by
  induction l with
  | nil => simp [deleteList] at h
  | cons hd tl ih =>
    rcases hd with ⟨k, d⟩
    by_cases hk : k = id
    · subst hk
      simp only [deleteList, beq_self_eq_true, if_true] at h
      exact List.mem_cons_of_mem _ (ih h)
    · simp only [deleteList, beq_iff_eq, hk, if_false, List.mem_cons] at h
      rcases h with h | h
      · subst h
        exact List.mem_cons_self _ _
      · exact List.mem_cons_of_mem _ (ih h)

theorem mem_upsert_statements {s : Store} {id : String} {f : StatementDoc → StatementDoc}
    {e : String × StatementDoc} (h : e ∈ (upsert_statement s id f).statements) :
    e ∈ s.statements ∨ (e.1 = id ∧ ∃ d, e.2 = f d) :=
  mem_upsertList h

theorem mem_delete_statements {s : Store} {id : String} {e : String × StatementDoc}
    (h : e ∈ (delete_statement s id).statements) : e ∈ s.statements :=
  mem_deleteList h

theorem keys_upsertList {l : List (String × StatementDoc)} {id : String}
    {f : StatementDoc → StatementDoc} {a : String}
    (h : a ∈ (upsertList l id f).map Prod.fst) :
    a ∈ l.map Prod.fst ∨ a = id := by
  rcases List.mem_map.mp h with ⟨e, he, rfl⟩
  rcases mem_upsertList he with h1 | h1
  · exact Or.inl (List.mem_map.mpr ⟨e, h1, rfl⟩)
  · exact Or.inr h1.1

theorem keys_deleteList {l : List (String × StatementDoc)} {id : String} {a : String}
    (h : a ∈ (deleteList l id).map Prod.fst) : a ∈ l.map Prod.fst := by
  rcases List.mem_map.mp h with ⟨e, he, rfl⟩
  exact List.mem_map.mpr ⟨e, mem_deleteList he, rfl⟩

theorem nodup_upsertList {l : List (String × StatementDoc)} (id : String)
    (f : StatementDoc → StatementDoc) (h : (l.map Prod.fst).Nodup) :
    ((upsertList l id f).map Prod.fst).Nodup := by
  induction l with
  | nil => simp [upsertList]
  | cons hd tl ih =>
    rcases hd with ⟨k, d⟩
    simp only [List.map_cons, List.nodup_cons] at h
    by_cases hk : k = id
    · subst hk
      simp only [upsertList, beq_self_eq_true, if_true, List.map_cons, List.nodup_cons]
      exact ⟨h.1, h.2⟩
    · simp only [upsertList, beq_iff_eq, hk, if_false, List.map_cons, List.nodup_cons]
      refine ⟨fun hmem => ?_, ih h.2⟩
      rcases keys_upsertList hmem with h1 | h1
      · exact h.1 h1
      · exact hk h1

theorem nodup_deleteList {l : List (String × StatementDoc)} (id : String)
    (h : (l.map Prod.fst).Nodup) : ((deleteList l id).map Prod.fst).Nodup := by
  induction l with
  | nil => simp [deleteList]
  | cons hd tl ih =>
    rcases hd with ⟨k, d⟩
    simp only [List.map_cons, List.nodup_cons] at h
    by_cases hk : k = id
    · subst hk
      simp only [deleteList, beq_self_eq_true, if_true]
      exact ih h.2
    · simp only [deleteList, beq_iff_eq, hk, if_false, List.map_cons, List.nodup_cons]
      exact ⟨fun hmem => h.1 (keys_deleteList hmem), ih h.2⟩

theorem wf_upsert {s : Store} (id : String) (f : StatementDoc → StatementDoc)
    (h : StoreWF s) : StoreWF (upsert_statement s id f) :=
  nodup_upsertList id f h

theorem wf_delete {s : Store} (id : String) (h : StoreWF s) :
    StoreWF (delete_statement s id) :=
  nodup_deleteList id h

theorem wf_batch_add {s : Store} (txs : List TxDoc) (h : StoreWF s) :
    StoreWF (batch_add_transactions s txs) := h

/-! Section: Path lemmas for per-message processing -/

theorem process_message_skip (env : Env) (rt pid m pw : String) (st : SyncState)
    (h : statement_exists_by_gmail_id st.store m = true) :
    process_message env rt pid m pw st =
      { st with results := { st.results with skipped := st.results.skipped + 1 } } := by
  unfold process_message
  rw [if_pos h]

theorem process_message_noskip (env : Env) (rt pid m pw : String) (st : SyncState)
    (h : statement_exists_by_gmail_id st.store m = false) :
    process_message env rt pid m pw st =
      processMessageBody env rt pid m pw (tempIdOf pid m)
        { st with store := upsert_statement st.store (tempIdOf pid m)
                             (provisionalFields pid m) } := by
  unfold process_message
  rw [if_neg (by simp [h])]

theorem body_download_error (env : Env) (rt pid m pw t : String) (st : SyncState)
    (e : PyError) (ha : env.getPdfAttachment rt m = .error e) :
    processMessageBody env rt pid m pw t st =
      genericFailure pid m t e.msg
        { st with trace := st.trace ++ [Eff.downloadAttachment m] } := by
  unfold processMessageBody
  rw [ha]

theorem body_no_attachment (env : Env) (rt pid m pw t : String) (st : SyncState)
    (ha : env.getPdfAttachment rt m = .ok none) :
    processMessageBody env rt pid m pw t st =
      genericFailure pid m t "No PDF attachment found in email"
        { st with trace := st.trace ++ [Eff.downloadAttachment m] } := by
  unfold processMessageBody
  rw [ha]

theorem body_wrong_password (env : Env) (rt pid m pw t fn : String) (b : Nat)
    (st : SyncState) (e : PyError) (hpw : pw ≠ "")
    (ha : env.getPdfAttachment rt m = .ok (some (fn, b)))
    (hd : env.pikepdfOpen b pw = .error e) (hsig : isPasswordSignal e = true) :
    processMessageBody env rt pid m pw t st =
      specificFailure t "wrong_password"
        (pid ++ ": wrong PDF password — update it in card settings")
        { st with trace := st.trace ++ [Eff.downloadAttachment m] ++ [Eff.openPdf b] } := by
  unfold processMessageBody
  rw [ha]
  simp only [if_pos hpw, decrypt_pdf, hd, hsig, if_true]

theorem body_decrypt_other (env : Env) (rt pid m pw t fn : String) (b : Nat)
    (st : SyncState) (e : PyError) (hpw : pw ≠ "")
    (ha : env.getPdfAttachment rt m = .ok (some (fn, b)))
    (hd : env.pikepdfOpen b pw = .error e) (hsig : isPasswordSignal e = false) :
    processMessageBody env rt pid m pw t st =
      genericFailure pid m t e.msg
        { st with trace := st.trace ++ [Eff.downloadAttachment m] ++ [Eff.openPdf b] } := by
  unfold processMessageBody
  rw [ha]
  simp only [if_pos hpw, decrypt_pdf, hd, hsig, Bool.false_eq_true, if_false]

theorem body_to_afterDecrypt (env : Env) (rt pid m pw t fn : String) (b b' : Nat)
    (st : SyncState)
    (ha : env.getPdfAttachment rt m = .ok (some (fn, b)))
    (hdec : (pw = "" ∧ b' = b) ∨ (pw ≠ "" ∧ env.pikepdfOpen b pw = .ok b')) :
    processMessageBody env rt pid m pw t st =
      afterDecrypt env pid m t b'
        { st with trace := st.trace ++ [Eff.downloadAttachment m] ++
                    (if pw = "" then [] else [Eff.openPdf b]) } := by
  unfold processMessageBody
  rw [ha]
  rcases hdec with ⟨hpw, rfl⟩ | ⟨hpw, hok⟩
  · simp [hpw]
  · simp only [if_pos hpw, decrypt_pdf, hok, if_neg hpw]

theorem afterDecrypt_scanned (env : Env) (pid m t : String) (b : Nat) (st : SyncState)
    (hr : is_readable env b 100 = false) :
    afterDecrypt env pid m t b st =
      specificFailure t "scanned_pdf_unsupported"
        (pid ++ "/" ++ pyTake m 8 ++ ": scanned PDF — OCR not yet supported")
        { st with trace := st.trace ++ [Eff.readTextLayer b] } := by
  unfold afterDecrypt
  rw [if_pos (by simp [hr])]

theorem afterDecrypt_gemini_none (env : Env) (pid m t : String) (b : Nat) (st : SyncState)
    (hr : is_readable env b 100 = true) (hg : env.gemini b = none) :
    afterDecrypt env pid m t b st =
      specificFailure t "gemini_extraction_failed"
        (pid ++ "/" ++ pyTake m 8 ++ ": Gemini extraction failed")
        { st with trace := st.trace ++ [Eff.readTextLayer b] ++ [Eff.extractWithGemini b] } := by
  unfold afterDecrypt
  rw [if_neg (by simp [hr]), hg]

theorem afterDecrypt_extracted (env : Env) (pid m t : String) (b : Nat) (st : SyncState)
    (ex : GeminiStatementOutput)
    (hr : is_readable env b 100 = true) (hg : env.gemini b = some ex) :
    afterDecrypt env pid m t b st =
      afterExtraction pid m t env.now ex
        { st with trace := st.trace ++ [Eff.readTextLayer b] ++ [Eff.extractWithGemini b] } := by
  unfold afterDecrypt
  rw [if_neg (by simp [hr]), hg]

theorem afterExtraction_missing (pid m t : String) (now : Nat)
    (ex : GeminiStatementOutput) (st : SyncState) (hb : ex.billing_period_to = "") :
    afterExtraction pid m t now ex st =
      specificFailure t "missing_billing_period_to"
        (pid ++ "/" ++ pyTake m 8 ++ ": Gemini did not return billing_period_to") st := by
  unfold afterExtraction
  rw [if_pos hb]

theorem afterExtraction_dup (pid m t : String) (now : Nat)
    (ex : GeminiStatementOutput) (st : SyncState) (hb : ex.billing_period_to ≠ "")
    (hdup : isProcessedDoc
      (get_statement st.store (pid ++ "_" ++ pyTake ex.billing_period_to 7)) = true) :
    afterExtraction pid m t now ex st =
      { st with store := delete_statement st.store t,
                results := { st.results with skipped := st.results.skipped + 1 } } := by
  unfold afterExtraction
  rw [if_neg hb, if_pos hdup]

theorem afterExtraction_write (pid m t : String) (now : Nat)
    (ex : GeminiStatementOutput) (st : SyncState) (hb : ex.billing_period_to ≠ "")
    (hdup : isProcessedDoc
      (get_statement st.store (pid ++ "_" ++ pyTake ex.billing_period_to 7)) = false) :
    afterExtraction pid m t now ex st =
      writeFinal pid m t (pyTake ex.billing_period_to 7)
        (pid ++ "_" ++ pyTake ex.billing_period_to 7) ex now st := by
  unfold afterExtraction
  rw [if_neg hb, if_neg (by simp [hdup])]

/-! Section: Counter accounting for per-message processing -/

theorem bumps_afterExtraction (pid m t : String) (now : Nat)
    (ex : GeminiStatementOutput) (st : SyncState) :
    BumpsOne st.results (afterExtraction pid m t now ex st).results := by
  unfold afterExtraction
  split
  · exact Or.inr (Or.inr ⟨rfl, rfl, rfl⟩)
  · dsimp only
    split
    · exact Or.inr (Or.inl ⟨rfl, rfl, rfl⟩)
    · exact Or.inl ⟨rfl, rfl, rfl⟩

theorem bumps_afterDecrypt (env : Env) (pid m t : String) (b : Nat) (st : SyncState) :
    BumpsOne st.results (afterDecrypt env pid m t b st).results := by
  unfold afterDecrypt
  split
  · exact Or.inr (Or.inr ⟨rfl, rfl, rfl⟩)
  · split
    · exact Or.inr (Or.inr ⟨rfl, rfl, rfl⟩)
    · exact bumps_afterExtraction _ _ _ _ _ _

theorem bumps_body (env : Env) (rt pid m pw t : String) (st : SyncState) :
    BumpsOne st.results (processMessageBody env rt pid m pw t st).results := by
  unfold processMessageBody
  split
  · exact Or.inr (Or.inr ⟨rfl, rfl, rfl⟩)
  · exact Or.inr (Or.inr ⟨rfl, rfl, rfl⟩)
  · split
    · split
      · exact Or.inr (Or.inr ⟨rfl, rfl, rfl⟩)
      · exact Or.inr (Or.inr ⟨rfl, rfl, rfl⟩)
      · exact bumps_afterDecrypt _ _ _ _ _ _
    · exact bumps_afterDecrypt _ _ _ _ _ _

theorem bumps_process_message (env : Env) (rt pid m pw : String) (st : SyncState) :
    BumpsOne st.results (process_message env rt pid m pw st).results := by
  unfold process_message
  split
  · exact Or.inr (Or.inl ⟨rfl, rfl, rfl⟩)
  · exact bumps_body _ _ _ _ _ _ _

theorem sum_bumps {r r' : SyncResults} (h : BumpsOne r r') :
    r'.processed + r'.skipped + r'.failed = r.processed + r.skipped + r.failed + 1 := by
  rcases h with ⟨h1, h2, h3⟩ | ⟨h1, h2, h3⟩ | ⟨h1, h2, h3⟩ <;> omega

theorem messages_fold_sum (env : Env) (rt pid pw : String) (msgs : List String)
    (st : SyncState) :
    (msgs.foldl (fun s m => process_message env rt pid m pw s) st).results.processed +
      (msgs.foldl (fun s m => process_message env rt pid m pw s) st).results.skipped +
      (msgs.foldl (fun s m => process_message env rt pid m pw s) st).results.failed =
      st.results.processed + st.results.skipped + st.results.failed + msgs.length := by
  induction msgs generalizing st with
  | nil => simp
  | cons m ms ih =>
    have h1 := sum_bumps (bumps_process_message env rt pid m pw st)
    have h2 := ih (process_message env rt pid m pw st)
    simp only [List.foldl_cons, List.length_cons]
    omega

theorem provider_sum (env : Env) (rt : String) (p : Provider) (st : SyncState) :
    (process_provider env rt p st).results.processed +
      (process_provider env rt p st).results.skipped +
      (process_provider env rt p st).results.failed =
      st.results.processed + st.results.skipped + st.results.failed +
        (env.searchMessages rt (buildQuery p)).length := by
  by_cases hE : (env.searchMessages rt (buildQuery p)).isEmpty
  · have hnil : env.searchMessages rt (buildQuery p) = [] := by
      simpa [List.isEmpty_iff] using hE
    simp [process_provider, hnil]
  · have h := messages_fold_sum env rt p.id
      (if p.encryptedPassword ≠ "" then
        match env.decryptSecret p.encryptedPassword with
        | .ok pw => pw
        | .error _ => ""
      else "")
      (env.searchMessages rt (buildQuery p))
      { st with trace := st.trace ++ [Eff.searchGmail (buildQuery p)] }
    simp only [process_provider, if_neg hE]
    simpa using h

theorem providers_fold_sum (env : Env) (rt : String) (providers : List Provider)
    (st : SyncState) :
    (providers.foldl (fun s p => process_provider env rt p s) st).results.processed +
      (providers.foldl (fun s p => process_provider env rt p s) st).results.skipped +
      (providers.foldl (fun s p => process_provider env rt p s) st).results.failed =
      st.results.processed + st.results.skipped + st.results.failed +
        totalMessages env rt providers := by
  induction providers generalizing st with
  | nil => simp [totalMessages]
  | cons p ps ih =>
    have h1 := provider_sum env rt p st
    have h2 := ih (process_provider env rt p st)
    simp only [List.foldl_cons]
    simp only [totalMessages, List.map_cons, List.sum_cons] at h2 ⊢
    omega

/-! Section: Second-run behaviour -/

theorem messages_fold_skip (env : Env) (rt pid pw : String) (msgs : List String)
    (S : Store) (r : SyncResults) (tr : List Eff)
    (h : ∀ m ∈ msgs, statement_exists_by_gmail_id S m = true) :
    msgs.foldl (fun s m => process_message env rt pid m pw s) ⟨S, r, tr⟩ =
      ⟨S, { r with skipped := r.skipped + msgs.length }, tr⟩ := by
  induction msgs generalizing r with
  | nil => simp
  | cons m ms ih =>
    rw [List.foldl_cons,
      process_message_skip env rt pid m pw ⟨S, r, tr⟩ (h m (List.mem_cons_self _ _)),
      ih { r with skipped := r.skipped + 1 }
        (fun m' hm' => h m' (List.mem_cons_of_mem _ hm'))]
    have harith : r.skipped + 1 + ms.length = r.skipped + (m :: ms).length := by
      simp only [List.length_cons]
      omega
    rw [harith]

theorem process_provider_skip (env : Env) (rt : String) (p : Provider)
    (S : Store) (r : SyncResults) (tr : List Eff)
    (h : ∀ m ∈ env.searchMessages rt (buildQuery p),
        statement_exists_by_gmail_id S m = true) :
    process_provider env rt p ⟨S, r, tr⟩ =
      ⟨S, { r with skipped := r.skipped + (env.searchMessages rt (buildQuery p)).length },
        tr ++ [Eff.searchGmail (buildQuery p)]⟩ := by
  by_cases hE : (env.searchMessages rt (buildQuery p)).isEmpty
  · have hnil : env.searchMessages rt (buildQuery p) = [] := by
      simpa [List.isEmpty_iff] using hE
    simp [process_provider, hnil]
  · simp only [process_provider, if_neg hE]
    exact messages_fold_skip env rt p.id _ _ S r _ h

theorem providers_fold_skip (env : Env) (rt : String) (providers : List Provider)
    (S : Store) (r : SyncResults) (tr : List Eff)
    (h : ∀ p ∈ providers, ∀ m ∈ env.searchMessages rt (buildQuery p),
        statement_exists_by_gmail_id S m = true) :
    providers.foldl (fun s p => process_provider env rt p s) ⟨S, r, tr⟩ =
      ⟨S, { r with skipped := r.skipped + totalMessages env rt providers },
        tr ++ providers.map (fun p => Eff.searchGmail (buildQuery p))⟩ := by
  induction providers generalizing r tr with
  | nil => simp [totalMessages]
  | cons p ps ih =>
    rw [List.foldl_cons,
      process_provider_skip env rt p S r tr (h p (List.mem_cons_self _ _)),
      ih { r with skipped := r.skipped + (env.searchMessages rt (buildQuery p)).length }
        (tr ++ [Eff.searchGmail (buildQuery p)])
        (fun q hq => h q (List.mem_cons_of_mem _ hq))]
    have harith : r.skipped + (env.searchMessages rt (buildQuery p)).length +
        totalMessages env rt ps = r.skipped + totalMessages env rt (p :: ps) := by
      simp only [totalMessages, List.map_cons, List.sum_cons]
      omega
    rw [harith, List.append_assoc]
    rfl

theorem run_sync_all_skipped (env : Env) (user : User) (providers : List Provider)
    (S : Store) (rt : String)
    (h1 : user.gmailConnected = true) (h2 : user.gmailRefreshToken ≠ "")
    (h3 : env.decryptSecret user.gmailRefreshToken = .ok rt) (h4 : providers ≠ [])
    (h5 : ∀ p ∈ providers, ∀ m ∈ env.searchMessages rt (buildQuery p),
        statement_exists_by_gmail_id S m = true) :
    run_sync env user providers S =
      (⟨S, ⟨0, totalMessages env rt providers, 0, []⟩,
         providers.map (fun p => Eff.searchGmail (buildQuery p))⟩,
       .jobDone ⟨0, totalMessages env rt providers, 0, []⟩) := by
  unfold run_sync
  rw [if_neg (by simp [h1]), if_neg h2, h3]
  dsimp only
  rw [if_neg (by simp [h4])]
  have hfold := providers_fold_skip env rt providers S emptyResults [] h5
  rw [hfold]
  simp [emptyResults]

theorem run_sync_done_sum (env : Env) (user : User) (providers : List Provider)
    (S : Store) (fin : SyncState) (r : SyncResults) (rt : String)
    (h3 : env.decryptSecret user.gmailRefreshToken = .ok rt)
    (h : run_sync env user providers S = (fin, .jobDone r)) :
    r.processed + r.skipped + r.failed = totalMessages env rt providers := by
  unfold run_sync at h
  by_cases h1 : user.gmailConnected = true
  · rw [if_neg (by simp [h1])] at h
    by_cases h2 : user.gmailRefreshToken = ""
    · rw [if_pos h2] at h
      simp at h
    · rw [if_neg h2, h3] at h
      dsimp only at h
      by_cases hP : providers.isEmpty
      · rw [if_pos hP] at h
        simp at h
      · rw [if_neg hP] at h
        have hr : (providers.foldl (fun s p => process_provider env rt p s)
            ⟨S, emptyResults, []⟩).results = r := by
          have h2 := congrArg Prod.snd h
          simpa using h2
        rw [← hr]
        simpa [emptyResults] using
          providers_fold_sum env rt providers ⟨S, emptyResults, []⟩
  · rw [if_pos (by simp [h1])] at h
    simp at h

/-- C1 (amended): if a processed Statement already references a source
message's Gmail id, per-message processing only increments the skipped
counter — the store, the transactions and the effect trace are left
untouched (no provisional record, no download); consequently a second
sync run against an unchanged, fully processed mailbox — one in which
every message is already referenced by a processed Statement — leaves
the store exactly unchanged (zero new Statements or Transactions),
counts every message as skipped, and consults no external service
except the Gmail searches.  (As the counterexample shows, a message
that *failed* on the first run is re-attempted, not skipped, on the
second run, so the original claim's "every message from the first run
is counted as skipped" holds only for mailboxes whose messages all
reached the processed state.) -/
theorem C1_idempotency :
    (∀ (env : Env) (rt pid m pw : String) (st : SyncState),
        statement_exists_by_gmail_id st.store m = true →
        process_message env rt pid m pw st =
          { st with results := { st.results with skipped := st.results.skipped + 1 } }) ∧
    (∀ (env : Env) (user : User) (providers : List Provider) (S : Store) (rt : String),
        user.gmailConnected = true → user.gmailRefreshToken ≠ "" →
        env.decryptSecret user.gmailRefreshToken = .ok rt → providers ≠ [] →
        (∀ p ∈ providers, ∀ m ∈ env.searchMessages rt (buildQuery p),
            statement_exists_by_gmail_id S m = true) →
        run_sync env user providers S =
          (⟨S, ⟨0, totalMessages env rt providers, 0, []⟩,
             providers.map (fun p => Eff.searchGmail (buildQuery p))⟩,
           .jobDone ⟨0, totalMessages env rt providers, 0, []⟩)) :=
  ⟨process_message_skip, run_sync_all_skipped⟩

/-- C1 counterexample: with one provider and one message whose PDF
decryption fails with a wrong password, the first sync run ends with
`failed = 1`; a second run against the unchanged mailbox re-attempts
the message and again counts it `failed`, with `skipped = 0` — so it is
not the case that every message from the first run is counted as
skipped on the second run. -/
theorem C1_claim_counterexample :
    (run_sync envC1 userC1 [provC1] emptyStore).1.results =
      ⟨0, 0, 1, ["hdfc: wrong PDF password — update it in card settings"]⟩ ∧
    (run_sync envC1 userC1 [provC1]
        (run_sync envC1 userC1 [provC1] emptyStore).1.store).1.results =
      ⟨0, 0, 1, ["hdfc: wrong PDF password — update it in card settings"]⟩ := by
  constructor <;> decide

/-- C1 witness: the amended theorem evaluated on a store that already
holds a processed Statement for the mailbox's single message. -/
theorem C1_witness :
    process_message envC1 "tok" "hdfc" "msgAAAAAAAA" "pw" ⟨storeC1, emptyResults, []⟩ =
      ⟨storeC1, ⟨0, 1, 0, []⟩, []⟩ ∧
    run_sync envC1 userC1 [provC1] storeC1 =
      (⟨storeC1, ⟨0, 1, 0, []⟩, [Eff.searchGmail (buildQuery provC1)]⟩,
       .jobDone ⟨0, 1, 0, []⟩) := by
  constructor
  · exact (C1_idempotency.1 envC1 "tok" "hdfc" "msgAAAAAAAA" "pw"
      ⟨storeC1, emptyResults, []⟩ (by decide)).trans (by decide)
  · exact (C1_idempotency.2 envC1 userC1 [provC1] storeC1 "tok" rfl (by decide) rfl
      (by decide) (by decide)).trans (by decide)

/-- C10: every normal return of per-message processing bumps exactly one
of the three counters by exactly one, and a completed job's counters sum
to the number of messages attempted. -/
theorem C10_counter_accounting :
    (∀ (env : Env) (rt pid m pw : String) (st : SyncState),
        BumpsOne st.results (process_message env rt pid m pw st).results) ∧
    (∀ (env : Env) (user : User) (providers : List Provider) (S : Store)
        (fin : SyncState) (r : SyncResults) (rt : String),
        env.decryptSecret user.gmailRefreshToken = .ok rt →
        run_sync env user providers S = (fin, .jobDone r) →
        r.processed + r.skipped + r.failed = totalMessages env rt providers) :=
  ⟨bumps_process_message, run_sync_done_sum⟩

/-- C10 witness: the accounting evaluated on a concrete one-message run
whose message fails the readability gate. -/
theorem C10_witness :
    BumpsOne emptyResults
      (process_message envC10 "tok" "hdfc" "msgAAAAAAAA" "" stEmpty).results ∧
    (⟨0, 0, 1, ["hdfc/msgAAAAA: scanned PDF — OCR not yet supported"]⟩ : SyncResults).processed +
      (⟨0, 0, 1, ["hdfc/msgAAAAA: scanned PDF — OCR not yet supported"]⟩ : SyncResults).skipped +
      (⟨0, 0, 1, ["hdfc/msgAAAAA: scanned PDF — OCR not yet supported"]⟩ : SyncResults).failed =
      totalMessages envC10 "tok" [provC10] :=
  ⟨C10_counter_accounting.1 envC10 "tok" "hdfc" "msgAAAAAAAA" "" stEmpty,
   C10_counter_accounting.2 envC10 userC10 [provC10] emptyStore
     (run_sync envC10 userC10 [provC10] emptyStore).1
     ⟨0, 0, 1, ["hdfc/msgAAAAA: scanned PDF — OCR not yet supported"]⟩ "tok" rfl (by decide)⟩

/-! Section: The at-most-one-processed invariant -/

theorem canonical_upsert_np {s : Store} {id : String} {f : StatementDoc → StatementDoc}
    (h : CanonicalProcessed s) (hf : ∀ d, (f d).status ≠ some "processed") :
    CanonicalProcessed (upsert_statement s id f) := by
  intro e he hst
  rcases mem_upsert_statements he with h1 | ⟨h1, d, h2⟩
  · exact h e h1 hst
  · rw [h2] at hst
    exact absurd hst (hf d)

theorem canonical_upsert_processed {s : Store} {p m : String}
    {f : StatementDoc → StatementDoc} (h : CanonicalProcessed s)
    (hf : ∀ d, (f d).cardProvider = some p ∧ (f d).billingMonth = some m) :
    CanonicalProcessed (upsert_statement s (p ++ "_" ++ m) f) := by
  intro e he _
  rcases mem_upsert_statements he with h1 | ⟨h1, d, h2⟩
  · exact h e h1 (by assumption)
  · exact ⟨p, m, h2 ▸ (hf d).1, h2 ▸ (hf d).2, h1⟩

theorem canonical_delete {s : Store} (id : String) (h : CanonicalProcessed s) :
    CanonicalProcessed (delete_statement s id) :=
  fun e he hst => h e (mem_delete_statements he) hst

theorem inv_specificFailure (t r e : String) (st : SyncState)
    (h : StoreInv st.store) : StoreInv (specificFailure t r e st).store :=
  ⟨wf_upsert _ _ h.1, canonical_upsert_np h.2 (fun d => by simp [failFields])⟩

theorem inv_genericFailure (pid m t msg : String) (st : SyncState)
    (h : StoreInv st.store) : StoreInv (genericFailure pid m t msg st).store :=
  ⟨wf_upsert _ _ h.1, canonical_upsert_np h.2 (fun d => by simp [failFields])⟩

theorem inv_writeFinal (pid m t bm : String) (ex : GeminiStatementOutput) (now : Nat)
    (st : SyncState) (h : StoreInv st.store) :
    StoreInv (writeFinal pid m t bm (pid ++ "_" ++ bm) ex now st).store := by
  unfold writeFinal
  exact ⟨wf_batch_add _ (wf_delete _ (wf_upsert _ _ h.1)),
    canonical_delete _ (canonical_upsert_processed h.2 (fun d => ⟨rfl, rfl⟩))⟩

theorem inv_afterExtraction (pid m t : String) (now : Nat) (ex : GeminiStatementOutput)
    (st : SyncState) (h : StoreInv st.store) :
    StoreInv (afterExtraction pid m t now ex st).store := by
  unfold afterExtraction
  split
  · exact inv_specificFailure _ _ _ _ h
  · dsimp only
    split
    · exact ⟨wf_delete _ h.1, canonical_delete _ h.2⟩
    · exact inv_writeFinal _ _ _ _ _ _ _ h

theorem inv_afterDecrypt (env : Env) (pid m t : String) (b : Nat) (st : SyncState)
    (h : StoreInv st.store) : StoreInv (afterDecrypt env pid m t b st).store := by
  unfold afterDecrypt
  split
  · exact inv_specificFailure _ _ _ _ h
  · split
    · exact inv_specificFailure _ _ _ _ h
    · exact inv_afterExtraction _ _ _ _ _ _ h

theorem inv_body (env : Env) (rt pid m pw t : String) (st : SyncState)
    (h : StoreInv st.store) : StoreInv (processMessageBody env rt pid m pw t st).store := by
  unfold processMessageBody
  split
  · exact inv_genericFailure _ _ _ _ _ h
  · exact inv_genericFailure _ _ _ _ _ h
  · split
    · split
      · exact inv_specificFailure _ _ _ _ h
      · exact inv_genericFailure _ _ _ _ _ h
      · exact inv_afterDecrypt _ _ _ _ _ _ h
    · exact inv_afterDecrypt _ _ _ _ _ _ h

theorem inv_process_message (env : Env) (rt pid m pw : String) (st : SyncState)
    (h : StoreInv st.store) : StoreInv (process_message env rt pid m pw st).store := by
  unfold process_message
  split
  · exact h
  · exact inv_body _ _ _ _ _ _ _
      ⟨wf_upsert _ _ h.1, canonical_upsert_np h.2 (fun d => by simp [provisionalFields])⟩

theorem inv_messages_fold (env : Env) (rt pid pw : String) (msgs : List String)
    (st : SyncState) (h : StoreInv st.store) :
    StoreInv ((msgs.foldl (fun s m => process_message env rt pid m pw s) st).store) := by
  induction msgs generalizing st with
  | nil => exact h
  | cons m ms ih =>
    rw [List.foldl_cons]
    exact ih _ (inv_process_message env rt pid m pw st h)

theorem inv_process_provider (env : Env) (rt : String) (p : Provider) (st : SyncState)
    (h : StoreInv st.store) : StoreInv (process_provider env rt p st).store := by
  unfold process_provider
  dsimp only
  by_cases hE : (env.searchMessages rt (buildQuery p)).isEmpty
  · rw [if_pos hE]
    exact h
  · rw [if_neg hE]
    exact inv_messages_fold _ _ _ _ _ _ h

theorem inv_providers_fold (env : Env) (rt : String) (providers : List Provider)
    (st : SyncState) (h : StoreInv st.store) :
    StoreInv ((providers.foldl (fun s p => process_provider env rt p s) st).store) := by
  induction providers generalizing st with
  | nil => exact h
  | cons p ps ih =>
    rw [List.foldl_cons]
    exact ih _ (inv_process_provider env rt p st h)

theorem inv_run_sync (env : Env) (user : User) (providers : List Provider) (S : Store)
    (h : StoreInv S) : StoreInv (run_sync env user providers S).1.store := by
  unfold run_sync
  by_cases h1 : user.gmailConnected = true
  · rw [if_neg (by simp [h1])]
    by_cases h2 : user.gmailRefreshToken = ""
    · rw [if_pos h2]
      exact h
    · rw [if_neg h2]
      rcases hdec : env.decryptSecret user.gmailRefreshToken with e | rt
      · exact h
      · dsimp only
        by_cases hP : providers.isEmpty
        · rw [if_pos hP]
          exact h
        · rw [if_neg hP]
          exact inv_providers_fold env rt providers ⟨S, emptyResults, []⟩ h
  · rw [if_pos (by simp [h1])]
    exact h

theorem inv_applyRuns (runs : List RunCfg) (S : Store) (h : StoreInv S) :
    StoreInv (applyRuns runs S) := by
  induction runs generalizing S with
  | nil => exact h
  | cons c cs ih =>
    exact ih _ (inv_run_sync c.env c.user c.providers S h)

theorem count_le_one {s : Store} (h : StoreInv s) (p m : String) :
    processedCount s p m ≤ 1 := by
  unfold processedCount
  have hall : ∀ e ∈ s.statements.filter (fun e =>
      e.2.status == some "processed" && e.2.cardProvider == some p &&
      e.2.billingMonth == some m), e.1 = p ++ "_" ++ m := by
    intro e he
    have hmem := List.mem_of_mem_filter he
    have hprop := (List.mem_filter.mp he).2
    simp only [Bool.and_eq_true, beq_iff_eq] at hprop
    rcases h.2 e hmem hprop.1.1 with ⟨p', m', hc, hb, hid⟩
    rw [hprop.1.2] at hc
    rw [hprop.2] at hb
    rw [hid, ← Option.some.inj hc, ← Option.some.inj hb]
  have hkeys : ((s.statements.filter (fun e =>
      e.2.status == some "processed" && e.2.cardProvider == some p &&
      e.2.billingMonth == some m)).map Prod.fst).Nodup :=
    ((List.filter_sublist _).map Prod.fst).nodup h.1
  rcases hfil : s.statements.filter (fun e =>
      e.2.status == some "processed" && e.2.cardProvider == some p &&
      e.2.billingMonth == some m) with _ | ⟨x, _ | ⟨y, tl⟩⟩
  · rw [hfil]
    simp
  · rw [hfil]
    simp
  · exfalso
    rw [hfil] at hall hkeys
    have hx := hall x (List.mem_cons_self _ _)
    have hy := hall y (List.mem_cons_of_mem _ (List.mem_cons_self _ _))
    simp only [List.map_cons, List.nodup_cons, List.mem_cons] at hkeys
    exact hkeys.1 (Or.inl (hx.trans hy.symm))

theorem tempId_ne_finalId (pid msgid bpt : String) :
    tempIdOf pid msgid ≠ pid ++ "_" ++ pyTake bpt 7 := by
  intro h
  have hlen := congrArg String.length h
  have e1 : ("_processing_" : String).length = 12 := rfl
  have e2 : ("_" : String).length = 1 := rfl
  rw [tempIdOf, String.length_append, String.length_append, String.length_append,
    String.length_append, e1, e2] at hlen
  have h2 : (pyTake bpt 7).length ≤ 7 := by
    show (bpt.data.take 7).length ≤ 7
    exact List.length_take_le _ _
  omega

/-- C2: after any number of sync runs starting from an empty store, at
most one Statement with status `processed` exists per (provider,
billing month) pair; and when the derived final id already names a
processed Statement at billing-month derivation time, the pipeline
deletes the provisional record, counts the message as skipped, and
leaves the document under the final id untouched. -/
theorem C2_at_most_one_processed :
    (∀ (runs : List RunCfg) (P M : String),
        processedCount (applyRuns runs emptyStore) P M ≤ 1) ∧
    (∀ (pid msgid : String) (now : Nat) (ex : GeminiStatementOutput) (st : SyncState)
        (d : StatementDoc),
        ex.billing_period_to ≠ "" →
        get_statement st.store (pid ++ "_" ++ pyTake ex.billing_period_to 7) = some d →
        d.status = some "processed" →
        afterExtraction pid msgid (tempIdOf pid msgid) now ex st =
          { st with store := delete_statement st.store (tempIdOf pid msgid),
                    results := { st.results with skipped := st.results.skipped + 1 } } ∧
        get_statement (afterExtraction pid msgid (tempIdOf pid msgid) now ex st).store
          (pid ++ "_" ++ pyTake ex.billing_period_to 7) = some d) := by
  constructor
  · intro runs P M
    exact count_le_one (inv_applyRuns runs emptyStore
      ⟨List.nodup_nil, fun e he => absurd he (List.not_mem_nil e)⟩) P M
  · intro pid msgid now ex st d hb hget hstatus
    have hdup : isProcessedDoc
        (get_statement st.store (pid ++ "_" ++ pyTake ex.billing_period_to 7)) = true := by
      rw [hget]
      simp [isProcessedDoc, hstatus]
    have heq := afterExtraction_dup pid msgid (tempIdOf pid msgid) now ex st hb hdup
    refine ⟨heq, ?_⟩
    rw [heq]
    show get_statement (delete_statement st.store (tempIdOf pid msgid)) _ = some d
    rw [get_statement_delete,
      if_neg (fun h => tempId_ne_finalId pid msgid ex.billing_period_to h.symm), hget]

/-- C2 witness: one concrete run establishing the invariant bound, and
the duplicate-discovered-late branch evaluated on a store that already
holds the processed statement `hdfc_2024-01`. -/
theorem C2_witness :
    processedCount (applyRuns [⟨envC2, userC2, [provC2]⟩] emptyStore) "hdfc" "2024-01" ≤ 1 ∧
    (afterExtraction "hdfc" "msgBBBBBBBB" (tempIdOf "hdfc" "msgBBBBBBBB") 7 outC2 stC2 =
        { stC2 with store := delete_statement stC2.store (tempIdOf "hdfc" "msgBBBBBBBB"),
                    results := { stC2.results with skipped := stC2.results.skipped + 1 } } ∧
      get_statement (afterExtraction "hdfc" "msgBBBBBBBB" (tempIdOf "hdfc" "msgBBBBBBBB")
          7 outC2 stC2).store
        ("hdfc" ++ "_" ++ pyTake outC2.billing_period_to 7) = some processedDocC2) :=
  ⟨C2_at_most_one_processed.1 [⟨envC2, userC2, [provC2]⟩] "hdfc" "2024-01",
   C2_at_most_one_processed.2 "hdfc" "msgBBBBBBBB" 7 outC2 stC2 processedDocC2
     (by decide) (by decide) rfl⟩

/-! Section: Failure-record projections -/

theorem get_specificFailure_at (t r e : String) (st : SyncState) :
    (get_statement (specificFailure t r e st).store t).map
      (fun d => (d.status, d.errorReason)) = some (some "failed", some r) := by
  show (get_statement (upsert_statement st.store t (failFields r)) t).map _ = _
  rw [get_statement_upsert, if_pos rfl]
  simp [failFields]

theorem get_genericFailure_at (pid m t msg : String) (st : SyncState) :
    (get_statement (genericFailure pid m t msg st).store t).map
      (fun d => (d.status, d.errorReason)) = some (some "failed", some (pyTake msg 200)) := by
  show (get_statement (upsert_statement st.store t (failFields (pyTake msg 200))) t).map _ = _
  rw [get_statement_upsert, if_pos rfl]
  simp [failFields]

theorem processed_monotone_upsert_np (s : Store) (id : String)
    (f : StatementDoc → StatementDoc) (id' : String)
    (hf : ∀ d, (f d).status ≠ some "processed")
    (h : isProcessedDoc (get_statement (upsert_statement s id f) id') = true) :
    isProcessedDoc (get_statement s id') = true := by
  by_cases hid : id' = id
  · subst hid
    rw [get_statement_upsert, if_pos rfl] at h
    simp only [isProcessedDoc, beq_iff_eq] at h
    exact absurd h (hf _)
  · rwa [get_statement_upsert, if_neg hid] at h

/-- C3: an uncaught per-message error (here: a failing attachment
download) converts the provisional record to `failed` with the
truncated error string and increments the failed counter; the provider
loop continues with the next message rather than aborting; and in the
concrete three-message scenario where message 2 fails decryption,
messages 1 and 3 still reach `processed` and the job results are
`{processed: 2, failed: 1}`. -/
theorem C3_batch_isolation :
    (∀ (env : Env) (rt pid m pw : String) (st : SyncState) (e : PyError),
        statement_exists_by_gmail_id st.store m = false →
        env.getPdfAttachment rt m = .error e →
        process_message env rt pid m pw st =
          genericFailure pid m (tempIdOf pid m) e.msg
            { st with
              store := upsert_statement st.store (tempIdOf pid m)
                         (provisionalFields pid m),
              trace := st.trace ++ [Eff.downloadAttachment m] } ∧
        (∀ (msgs : List String),
            (m :: msgs).foldl (fun s m' => process_message env rt pid m' pw s) st =
              msgs.foldl (fun s m' => process_message env rt pid m' pw s)
                (process_message env rt pid m pw st))) ∧
    ((run_sync envC3 userC3 [provC3] emptyStore).1.results =
        ⟨2, 0, 1, ["hdfc: wrong PDF password — update it in card settings"]⟩ ∧
      ((run_sync envC3 userC3 [provC3] emptyStore).1.store.statements.map
        (fun p => (p.1, p.2.status, p.2.gmailMessageId, p.2.errorReason))) =
        [("hdfc_2024-01", some "processed", some "m1AAAAAAA", none),
         ("hdfc_processing_m2BBBBBB", some "failed", some "m2BBBBBBB", some "wrong_password"),
         ("hdfc_2024-02", some "processed", some "m3CCCCCCC", none)]) := by
  constructor
  · intro env rt pid m pw st e h0 ha
    constructor
    · rw [process_message_noskip env rt pid m pw st h0,
        body_download_error env rt pid m pw (tempIdOf pid m) _ e ha]
    · intro msgs
      rw [List.foldl_cons]
  · constructor <;> decide

/-- C3 witness: the error-conversion equality evaluated on a concrete
one-message scenario whose download raises. -/
theorem C3_witness :
    process_message envC3b "tok" "hdfc" "m1AAAAAAA" "" stEmpty =
      genericFailure "hdfc" "m1AAAAAAA" (tempIdOf "hdfc" "m1AAAAAAA") "network unreachable"
        { stEmpty with
          store := upsert_statement stEmpty.store (tempIdOf "hdfc" "m1AAAAAAA")
                     (provisionalFields "hdfc" "m1AAAAAAA"),
          trace := stEmpty.trace ++ [Eff.downloadAttachment "m1AAAAAAA"] } ∧
    ["m1AAAAAAA", "m9ZZZZZZZ"].foldl
        (fun s m' => process_message envC3b "tok" "hdfc" m' "" s) stEmpty =
      ["m9ZZZZZZZ"].foldl (fun s m' => process_message envC3b "tok" "hdfc" m' "" s)
        (process_message envC3b "tok" "hdfc" "m1AAAAAAA" "" stEmpty) :=
  ⟨(C3_batch_isolation.1 envC3b "tok" "hdfc" "m1AAAAAAA" "" stEmpty
      ⟨"HttpError", "network unreachable"⟩ (by decide) rfl).1,
   (C3_batch_isolation.1 envC3b "tok" "hdfc" "m1AAAAAAA" "" stEmpty
      ⟨"HttpError", "network unreachable"⟩ (by decide) rfl).2 ["m9ZZZZZZZ"]⟩

/-- C5: a decryption failure whose library error matches the
password signal is raised as `WrongPassword` (any other decryption
error is re-raised as-is); the pipeline then records the statement as
`failed` with errorReason exactly `wrong_password`, increments the
failed counter, never marks it processed, and creates no new processed
statement; a non-password decryption error instead flows to the generic
catch-all with the truncated library message. -/
theorem C5_wrong_password :
    (∀ (env : Env) (b : Nat) (pw : String) (e : PyError),
        env.pikepdfOpen b pw = .error e →
        (isPasswordSignal e = true →
          decrypt_pdf env b pw = .error (.wrongPassword e.msg)) ∧
        (isPasswordSignal e = false → decrypt_pdf env b pw = .error (.other e))) ∧
    (∀ (env : Env) (rt pid m pw fn : String) (b : Nat) (st : SyncState) (e : PyError),
        statement_exists_by_gmail_id st.store m = false →
        pw ≠ "" →
        env.getPdfAttachment rt m = .ok (some (fn, b)) →
        env.pikepdfOpen b pw = .error e →
        (isPasswordSignal e = true →
          (get_statement (process_message env rt pid m pw st).store
              (tempIdOf pid m)).map (fun d => (d.status, d.errorReason)) =
            some (some "failed", some "wrong_password") ∧
          (process_message env rt pid m pw st).results.failed = st.results.failed + 1 ∧
          (process_message env rt pid m pw st).results.processed = st.results.processed ∧
          (∀ id, isProcessedDoc
              (get_statement (process_message env rt pid m pw st).store id) = true →
            isProcessedDoc (get_statement st.store id) = true)) ∧
        (isPasswordSignal e = false →
          (get_statement (process_message env rt pid m pw st).store
              (tempIdOf pid m)).map (fun d => (d.status, d.errorReason)) =
            some (some "failed", some (pyTake e.msg 200)) ∧
          (process_message env rt pid m pw st).results.failed = st.results.failed + 1)) := by
  constructor
  · intro env b pw e he
    constructor
    · intro hsig
      unfold decrypt_pdf
      rw [he]
      dsimp only
      rw [if_pos hsig]
    · intro hsig
      unfold decrypt_pdf
      rw [he]
      dsimp only
      rw [if_neg (by simp [hsig])]
  · intro env rt pid m pw fn b st e h0 hpw ha hd
    constructor
    · intro hsig
      have heq : process_message env rt pid m pw st =
          specificFailure (tempIdOf pid m) "wrong_password"
            (pid ++ ": wrong PDF password — update it in card settings")
            { st with
              store := upsert_statement st.store (tempIdOf pid m) (provisionalFields pid m),
              trace := st.trace ++ [Eff.downloadAttachment m] ++ [Eff.openPdf b] } := by
        rw [process_message_noskip env rt pid m pw st h0,
          body_wrong_password env rt pid m pw (tempIdOf pid m) fn b _ e hpw ha hd hsig]
      refine ⟨?_, ?_, ?_, ?_⟩
      · rw [heq]
        exact get_specificFailure_at _ _ _ _
      · rw [heq]
        rfl
      · rw [heq]
        rfl
      · intro id hproc
        rw [heq] at hproc
        exact processed_monotone_upsert_np _ _ _ _
          (fun d => by simp [provisionalFields])
          (processed_monotone_upsert_np _ _ _ _ (fun d => by simp [failFields]) hproc)
    · intro hsig
      have heq : process_message env rt pid m pw st =
          genericFailure pid m (tempIdOf pid m) e.msg
            { st with
              store := upsert_statement st.store (tempIdOf pid m) (provisionalFields pid m),
              trace := st.trace ++ [Eff.downloadAttachment m] ++ [Eff.openPdf b] } := by
        rw [process_message_noskip env rt pid m pw st h0,
          body_decrypt_other env rt pid m pw (tempIdOf pid m) fn b _ e hpw ha hd hsig]
      refine ⟨?_, ?_⟩
      · rw [heq]
        exact get_genericFailure_at _ _ _ _ _
      · rw [heq]
        rfl

/-- C5 witness: the classification and the pipeline effect evaluated on
a concrete encrypted statement with a wrong password, and on a corrupt
PDF whose error carries no password signal. -/
theorem C5_witness :
    decrypt_pdf envC5 1 "pw" = .error (.wrongPassword "invalid password") ∧
    (get_statement (process_message envC5 "tok" "hdfc" "msgAAAAAAAA" "pw" stEmpty).store
        (tempIdOf "hdfc" "msgAAAAAAAA")).map (fun d => (d.status, d.errorReason)) =
      some (some "failed", some "wrong_password") ∧
    decrypt_pdf envC5b 1 "pw" = .error (.other ⟨"ValueError", "corrupt data"⟩) ∧
    (get_statement (process_message envC5b "tok" "hdfc" "msgAAAAAAAA" "pw" stEmpty).store
        (tempIdOf "hdfc" "msgAAAAAAAA")).map (fun d => (d.status, d.errorReason)) =
      some (some "failed", some (pyTake "corrupt data" 200)) :=
  ⟨(C5_wrong_password.1 envC5 1 "pw" ⟨"PasswordError", "invalid password"⟩ rfl).1 (by decide),
   ((C5_wrong_password.2 envC5 "tok" "hdfc" "msgAAAAAAAA" "pw" "stmt.pdf" 1 stEmpty
      ⟨"PasswordError", "invalid password"⟩ (by decide) (by decide) rfl rfl).1 (by decide)).1,
   (C5_wrong_password.1 envC5b 1 "pw" ⟨"ValueError", "corrupt data"⟩ rfl).2 (by decide),
   ((C5_wrong_password.2 envC5b "tok" "hdfc" "msgAAAAAAAA" "pw" "stmt.pdf" 1 stEmpty
      ⟨"ValueError", "corrupt data"⟩ (by decide) (by decide) rfl rfl).2 (by decide)).1⟩

/-- C6: `is_readable` with the default threshold returns false exactly
when the stripped extracted text has fewer than 100 characters, and an
unreadable PDF is recorded as `failed` with reason
`scanned_pdf_unsupported` without the Gemini extraction client ever
being consulted. -/
theorem C6_readability_gate :
    (∀ (env : Env) (b : Nat),
        is_readable env b 100 = false ↔
          (pyStrip (extract_text_fallback env b)).length < 100) ∧
    (∀ (env : Env) (rt pid m pw fn : String) (b b' : Nat) (st : SyncState),
        statement_exists_by_gmail_id st.store m = false →
        env.getPdfAttachment rt m = .ok (some (fn, b)) →
        ((pw = "" ∧ b' = b) ∨ (pw ≠ "" ∧ env.pikepdfOpen b pw = .ok b')) →
        is_readable env b' 100 = false →
        (get_statement (process_message env rt pid m pw st).store
            (tempIdOf pid m)).map (fun d => (d.status, d.errorReason)) =
          some (some "failed", some "scanned_pdf_unsupported") ∧
        (process_message env rt pid m pw st).results.failed = st.results.failed + 1 ∧
        (∃ Δ, (process_message env rt pid m pw st).trace = st.trace ++ Δ ∧
          ∀ x, Eff.extractWithGemini x ∉ Δ)) := by
  constructor
  · intro env b
    unfold is_readable
    constructor
    · intro h
      by_contra hlt
      simp only [not_lt] at hlt
      simp [hlt] at h
    · intro h
      simp [Nat.not_le_of_lt h]
  · intro env rt pid m pw fn b b' st h0 ha hdec hr
    have heq : process_message env rt pid m pw st =
        specificFailure (tempIdOf pid m) "scanned_pdf_unsupported"
          (pid ++ "/" ++ pyTake m 8 ++ ": scanned PDF — OCR not yet supported")
          { st with
            store := upsert_statement st.store (tempIdOf pid m) (provisionalFields pid m),
            trace := st.trace ++ [Eff.downloadAttachment m] ++
              (if pw = "" then [] else [Eff.openPdf b]) ++ [Eff.readTextLayer b'] } := by
      rw [process_message_noskip env rt pid m pw st h0,
        body_to_afterDecrypt env rt pid m pw (tempIdOf pid m) fn b b' _ ha hdec,
        afterDecrypt_scanned env pid m (tempIdOf pid m) b' _ hr]
    refine ⟨?_, ?_, ?_⟩
    · rw [heq]
      exact get_specificFailure_at _ _ _ _
    · rw [heq]
      rfl
    · refine ⟨[Eff.downloadAttachment m] ++ (if pw = "" then [] else [Eff.openPdf b]) ++
        [Eff.readTextLayer b'], ?_, ?_⟩
      · rw [heq]
        show st.trace ++ [Eff.downloadAttachment m] ++
            (if pw = "" then [] else [Eff.openPdf b]) ++ [Eff.readTextLayer b'] = _
        simp [List.append_assoc]
      · intro x
        by_cases hpw : pw = "" <;> simp [hpw]

/-- C6 witness: the gate evaluated on a PDF whose text layer holds 4
characters: rejection reason `scanned_pdf_unsupported`, failed counter
bumped, and a trace free of extraction calls. -/
theorem C6_witness :
    (is_readable envC6 1 100 = false ↔
      (pyStrip (extract_text_fallback envC6 1)).length < 100) ∧
    (get_statement (process_message envC6 "tok" "hdfc" "msgAAAAAAAA" "" stEmpty).store
        (tempIdOf "hdfc" "msgAAAAAAAA")).map (fun d => (d.status, d.errorReason)) =
      some (some "failed", some "scanned_pdf_unsupported") ∧
    (process_message envC6 "tok" "hdfc" "msgAAAAAAAA" "" stEmpty).results.failed =
      stEmpty.results.failed + 1 :=
  ⟨(C6_readability_gate.1 envC6 1),
   ((C6_readability_gate.2 envC6 "tok" "hdfc" "msgAAAAAAAA" "" "scan.pdf" 1 1 stEmpty
      (by decide) rfl (Or.inl ⟨rfl, rfl⟩) (by decide)).1),
   ((C6_readability_gate.2 envC6 "tok" "hdfc" "msgAAAAAAAA" "" "scan.pdf" 1 1 stEmpty
      (by decide) rfl (Or.inl ⟨rfl, rfl⟩) (by decide)).2).1⟩

/-- C9: an extraction result whose `billing_period_to` is missing
(empty) ends the message in terminal reason exactly
`missing_billing_period_to`, while a null extraction result ends it in
`gemini_extraction_failed`; the two reasons are distinct. -/
theorem C9_missing_billing_period :
    (∀ (env : Env) (rt pid m pw fn : String) (b b' : Nat) (st : SyncState)
        (ex : GeminiStatementOutput),
        statement_exists_by_gmail_id st.store m = false →
        env.getPdfAttachment rt m = .ok (some (fn, b)) →
        ((pw = "" ∧ b' = b) ∨ (pw ≠ "" ∧ env.pikepdfOpen b pw = .ok b')) →
        is_readable env b' 100 = true →
        env.gemini b' = some ex →
        ex.billing_period_to = "" →
        (get_statement (process_message env rt pid m pw st).store
            (tempIdOf pid m)).map (fun d => (d.status, d.errorReason)) =
          some (some "failed", some "missing_billing_period_to") ∧
        (process_message env rt pid m pw st).results.failed = st.results.failed + 1) ∧
    (∀ (env : Env) (rt pid m pw fn : String) (b b' : Nat) (st : SyncState),
        statement_exists_by_gmail_id st.store m = false →
        env.getPdfAttachment rt m = .ok (some (fn, b)) →
        ((pw = "" ∧ b' = b) ∨ (pw ≠ "" ∧ env.pikepdfOpen b pw = .ok b')) →
        is_readable env b' 100 = true →
        env.gemini b' = none →
        (get_statement (process_message env rt pid m pw st).store
            (tempIdOf pid m)).map (fun d => (d.status, d.errorReason)) =
          some (some "failed", some "gemini_extraction_failed") ∧
        (process_message env rt pid m pw st).results.failed = st.results.failed + 1) ∧
    ("missing_billing_period_to" : String) ≠ "gemini_extraction_failed" := by
  refine ⟨?_, ?_, by decide⟩
  · intro env rt pid m pw fn b b' st ex h0 ha hdec hr hg hbpt
    have heq : process_message env rt pid m pw st =
        specificFailure (tempIdOf pid m) "missing_billing_period_to"
          (pid ++ "/" ++ pyTake m 8 ++ ": Gemini did not return billing_period_to")
          { st with
            store := upsert_statement st.store (tempIdOf pid m) (provisionalFields pid m),
            trace := st.trace ++ [Eff.downloadAttachment m] ++
              (if pw = "" then [] else [Eff.openPdf b]) ++ [Eff.readTextLayer b'] ++
              [Eff.extractWithGemini b'] } := by
      rw [process_message_noskip env rt pid m pw st h0,
        body_to_afterDecrypt env rt pid m pw (tempIdOf pid m) fn b b' _ ha hdec,
        afterDecrypt_extracted env pid m (tempIdOf pid m) b' _ ex hr hg,
        afterExtraction_missing pid m (tempIdOf pid m) env.now ex _ hbpt]
    refine ⟨?_, ?_⟩
    · rw [heq]
      exact get_specificFailure_at _ _ _ _
    · rw [heq]
      rfl
  · intro env rt pid m pw fn b b' st h0 ha hdec hr hg
    have heq : process_message env rt pid m pw st =
        specificFailure (tempIdOf pid m) "gemini_extraction_failed"
          (pid ++ "/" ++ pyTake m 8 ++ ": Gemini extraction failed")
          { st with
            store := upsert_statement st.store (tempIdOf pid m) (provisionalFields pid m),
            trace := st.trace ++ [Eff.downloadAttachment m] ++
              (if pw = "" then [] else [Eff.openPdf b]) ++ [Eff.readTextLayer b'] ++
              [Eff.extractWithGemini b'] } := by
      rw [process_message_noskip env rt pid m pw st h0,
        body_to_afterDecrypt env rt pid m pw (tempIdOf pid m) fn b b' _ ha hdec,
        afterDecrypt_gemini_none env pid m (tempIdOf pid m) b' _ hr hg]
    refine ⟨?_, ?_⟩
    · rw [heq]
      exact get_specificFailure_at _ _ _ _
    · rw [heq]
      rfl

/-- C9 witness: the two terminal reasons evaluated on a concrete
extraction with empty `billing_period_to` and on a null extraction. -/
theorem C9_witness :
    (get_statement (process_message envC9 "tok" "hdfc" "msgAAAAAAAA" "" stEmpty).store
        (tempIdOf "hdfc" "msgAAAAAAAA")).map (fun d => (d.status, d.errorReason)) =
      some (some "failed", some "missing_billing_period_to") ∧
    (get_statement (process_message envC9b "tok" "hdfc" "msgAAAAAAAA" "" stEmpty).store
        (tempIdOf "hdfc" "msgAAAAAAAA")).map (fun d => (d.status, d.errorReason)) =
      some (some "failed", some "gemini_extraction_failed") :=
  ⟨(C9_missing_billing_period.1 envC9 "tok" "hdfc" "msgAAAAAAAA" "" "stmt.pdf" 1 1 stEmpty
      outC9 (by decide) rfl (Or.inl ⟨rfl, rfl⟩) (by decide) rfl rfl).1,
   (C9_missing_billing_period.2.1 envC9b "tok" "hdfc" "msgAAAAAAAA" "" "stmt.pdf" 1 1 stEmpty
      (by decide) rfl (Or.inl ⟨rfl, rfl⟩) (by decide) rfl).1⟩

/-! Section: Agent-loop lemmas -/

theorem handleParts_events (env : AgentEnv) (parts : List GeminiPart) (acc : LoopAcc) :
    ∃ Δ, (parts.foldl (handlePart env) acc).events = acc.events ++ Δ ∧
      ∀ ev ∈ Δ, (∃ n a, ev = AgentEvent.toolCall n a) ∨
        (∃ n s, ev = AgentEvent.toolResult n s) := by
  induction parts generalizing acc with
  | nil => exact ⟨[], by simp, by simp⟩
  | cons p ps ih =>
    rw [List.foldl_cons]
    rcases hfc : p.functionCall with _ | ⟨n, a⟩
    · have hstep : handlePart env acc p = acc := by
        unfold handlePart
        rw [hfc]
      rw [hstep]
      exact ih acc
    · have hstep : (handlePart env acc p).events = acc.events ++
          [AgentEvent.toolCall n a, AgentEvent.toolResult n (env.summarize n
            (if knownTools.contains n then env.execute n a else jsonErrorUnknown n))] := by
        unfold handlePart
        rw [hfc]
      rcases ih (handlePart env acc p) with ⟨Δ, hΔ, hall⟩
      refine ⟨[AgentEvent.toolCall n a, AgentEvent.toolResult n (env.summarize n
        (if knownTools.contains n then env.execute n a else jsonErrorUnknown n))] ++ Δ,
        ?_, ?_⟩
      · rw [hΔ, hstep, List.append_assoc]
      · intro ev hev
        rcases List.mem_append.mp hev with h1 | h1
        · rcases List.mem_cons.mp h1 with h2 | h2
          · exact Or.inl ⟨n, a, h2⟩
          · rcases List.mem_singleton.mp h2 with rfl
            exact Or.inr ⟨n, _, rfl⟩
        · exact hall ev h1

theorem agentLoop_shape (env : AgentEnv) (fuel : Nat) (cs : List GeminiContent)
    (col : List ToolCallRec) (calls : Nat) :
    (agentLoop env fuel cs col calls).2 ≤ calls + fuel ∧
    ∃ pre c tcs, (agentLoop env fuel cs col calls).1 = pre ++ [.message c tcs, .done] ∧
      ∀ ev ∈ pre, (∃ n a, ev = AgentEvent.toolCall n a) ∨
        (∃ n s, ev = AgentEvent.toolResult n s) := by
  induction fuel generalizing cs col calls with
  | zero =>
    exact ⟨Nat.le_of_eq (Nat.add_zero calls).symm,
      [], some maxIterationsMessage, col, rfl, by simp⟩
  | succ fuel ih =>
    rw [agentLoop]
    by_cases hFC : (env.model cs).parts.any (fun p => p.functionCall.isSome) = true
    · rw [if_pos hFC]
      dsimp only
      rcases ih (((env.model cs).parts.foldl (handlePart env) ⟨[], cs, col⟩).contents)
        (((env.model cs).parts.foldl (handlePart env) ⟨[], cs, col⟩).collected)
        (calls + 1) with ⟨hle, pre, c, tcs, hev, hall⟩
      rcases handleParts_events env (env.model cs).parts ⟨[], cs, col⟩ with ⟨Δ, hΔ, hallΔ⟩
      refine ⟨by omega, Δ ++ pre, c, tcs, ?_, ?_⟩
      · rw [hev, hΔ]
        simp [List.append_assoc]
      · intro ev hev'
        rcases List.mem_append.mp hev' with h1 | h1
        · exact hallΔ ev h1
        · exact hall ev h1
    · rw [if_neg hFC]
      exact ⟨by omega, [], finalText (env.model cs).parts, col, rfl, by simp⟩

theorem agentLoop_allFC (env : AgentEnv)
    (h : ∀ cs, (env.model cs).parts.any (fun p => p.functionCall.isSome) = true)
    (fuel : Nat) (cs : List GeminiContent) (col : List ToolCallRec) (calls : Nat) :
    (agentLoop env fuel cs col calls).2 = calls + fuel ∧
    ∃ pre tcs, (agentLoop env fuel cs col calls).1 =
      pre ++ [.message (some maxIterationsMessage) tcs, .done] := by
  induction fuel generalizing cs col calls with
  | zero => exact ⟨(Nat.add_zero calls).symm, [], col, rfl⟩
  | succ fuel ih =>
    rw [agentLoop, if_pos (h cs)]
    dsimp only
    rcases ih (((env.model cs).parts.foldl (handlePart env) ⟨[], cs, col⟩).contents)
      (((env.model cs).parts.foldl (handlePart env) ⟨[], cs, col⟩).collected)
      (calls + 1) with ⟨hcalls, pre, tcs, hev⟩
    refine ⟨by omega, ((env.model cs).parts.foldl (handlePart env) ⟨[], cs, col⟩).events
      ++ pre, tcs, ?_⟩
    rw [hev, List.append_assoc]

theorem agentLoop_noFC (env : AgentEnv) (fuel : Nat) (cs : List GeminiContent)
    (col : List ToolCallRec) (calls : Nat)
    (h : (env.model cs).parts.any (fun p => p.functionCall.isSome) = false) :
    agentLoop env (fuel + 1) cs col calls =
      ([.message (finalText (env.model cs).parts) col, .done], calls + 1) := by
  rw [agentLoop, if_neg (by simp [h])]

/-- C4: the agent loop makes at most 10 model calls and always ends its
event stream with exactly one final `message` event followed by exactly
one `done` event (everything before them is tool activity); a first
response without function-call parts ends the loop after a single model
call with that response's text as the final answer; and a model that
answers every conversation with function calls drives the loop through
exactly 10 model calls into the max-iterations path, whose final
message is the degraded partial-results text. -/
theorem C4_agent_loop_termination :
    (∀ (env : AgentEnv) (um : String) (h : List StoredMessage),
        (run_agent_stream env um h).2 ≤ 10 ∧
        ∃ pre c tcs, (run_agent_stream env um h).1 = pre ++ [.message c tcs, .done] ∧
          ∀ ev ∈ pre, (∃ n a, ev = AgentEvent.toolCall n a) ∨
            (∃ n s, ev = AgentEvent.toolResult n s)) ∧
    (∀ (env : AgentEnv) (um : String) (h : List StoredMessage),
        (env.model (build_contents_from_history h ++ [⟨"user", [textPart um]⟩])).parts.any
            (fun p => p.functionCall.isSome) = false →
        run_agent_stream env um h =
          ([.message (finalText ((env.model (build_contents_from_history h ++
              [⟨"user", [textPart um]⟩])).parts)) [], .done], 1)) ∧
    (∀ (env : AgentEnv) (um : String) (h : List StoredMessage),
        (∀ cs, (env.model cs).parts.any (fun p => p.functionCall.isSome) = true) →
        (run_agent_stream env um h).2 = 10 ∧
        ∃ pre tcs, (run_agent_stream env um h).1 =
          pre ++ [.message (some maxIterationsMessage) tcs, .done]) := by
  refine ⟨?_, ?_, ?_⟩
  · intro env um h
    have := agentLoop_shape env 10 (build_contents_from_history h ++ [⟨"user", [textPart um]⟩]) [] 0
    exact this
  · intro env um h hFC
    exact agentLoop_noFC env 9 _ [] 0 hFC
  · intro env um h hall
    exact agentLoop_allFC env hall 10 _ [] 0

/-- C4 witness: a model that always requests a tool forces exactly 10
model calls and the degraded final message; a model that answers with
text terminates after one call with that text as the final answer. -/
theorem C4_witness :
    ((run_agent_stream aenvC4all "hello" []).2 = 10 ∧
      (run_agent_stream aenvC4all "hello" []).2 ≤ 10) ∧
    run_agent_stream aenvC4txt "hello" [] =
      ([.message (some "the answer") [], .done], 1) :=
  ⟨⟨(C4_agent_loop_termination.2.2 aenvC4all "hello" [] (fun _ => rfl)).1,
    (C4_agent_loop_termination.1 aenvC4all "hello" []).1⟩,
   (C4_agent_loop_termination.2.1 aenvC4txt "hello" [] rfl).trans (by decide)⟩

/-! Section: History-reconstruction lemmas -/

theorem toolCallTurns_fold (tcs : List ToolCallRec) (cs0 : List GeminiContent)
    (h : ∀ tc ∈ tcs, tc.result.isSome) :
    tcs.foldl toolCallTurnStep cs0 =
      cs0 ++ tcs.flatMap (fun tc =>
        [⟨"model", [functionCallPart tc.name tc.arguments]⟩,
         ⟨"user", [functionResponsePart tc.name (tc.result.getD "")]⟩]) := by
  induction tcs generalizing cs0 with
  | nil => simp
  | cons tc tl ih =>
    rcases hres : tc.result with _ | r
    · exact absurd (h tc (List.mem_cons_self _ _)) (by simp [hres])
    · rw [List.foldl_cons]
      have hstep : toolCallTurnStep cs0 tc =
          cs0 ++ [⟨"model", [functionCallPart tc.name tc.arguments]⟩,
                  ⟨"user", [functionResponsePart tc.name r]⟩] := by
        unfold toolCallTurnStep
        rw [hres]
        simp
      rw [hstep, ih _ (fun tc' htc' => h tc' (List.mem_cons_of_mem _ htc'))]
      simp [hres, List.append_assoc]

theorem build_contents_fold (history : List StoredMessage) (acc : List GeminiContent)
    (h : ∀ msg ∈ history, ∀ tc ∈ msg.toolCalls.getD [], tc.result.isSome) :
    history.foldl historyStep acc = acc ++ history.flatMap specTurnsOfMessage := by
  induction history generalizing acc with
  | nil => simp
  | cons msg tl ih =>
    rw [List.foldl_cons]
    have hmsg : ∀ tc ∈ msg.toolCalls.getD [], tc.result.isSome :=
      h msg (List.mem_cons_self _ _)
    have htl : ∀ msg' ∈ tl, ∀ tc ∈ msg'.toolCalls.getD [], tc.result.isSome :=
      fun msg' hm => h msg' (List.mem_cons_of_mem _ hm)
    have hstep : historyStep acc msg = acc ++ specTurnsOfMessage msg := by
      unfold historyStep specTurnsOfMessage
      by_cases h1 : msg.role = "user"
      · rw [if_pos h1, if_pos h1]
      · rw [if_neg h1, if_neg h1]
        by_cases h2 : msg.role = "assistant"
        · rw [if_pos h2, if_pos h2]
          dsimp only
          rw [toolCallTurns_fold _ _ hmsg]
          by_cases h3 : msg.content.getD "" ≠ ""
          · rw [if_pos h3, if_pos h3, List.append_assoc]
          · rw [if_neg h3, if_neg h3]
            simp
        · rw [if_neg h2, if_neg h2]
          simp
    rw [hstep, ih _ htl, List.flatMap_cons, List.append_assoc]

/-- C7: reconstructing persisted history into model conversation turns
is the order-preserving per-message expansion the spec describes — one
user text turn per user message; for an assistant message one
function-call turn plus one function-response turn per recorded call (in
recorded order) followed by a model text turn when content is present.
(The hypothesis that every recorded call carries a result reflects the
persistence path, which always stores the summary string as the
result.)  Determinism holds because the reconstruction is a pure
function of the history. -/
theorem C7_history_reconstruction :
    ∀ (history : List StoredMessage),
      (∀ msg ∈ history, ∀ tc ∈ msg.toolCalls.getD [], tc.result.isSome) →
      build_contents_from_history history = history.flatMap specTurnsOfMessage := by
  intro history h
  unfold build_contents_from_history
  rw [build_contents_fold history [] h]
  rfl

/-- C7 witness: a history of one user message and one assistant message
with two recorded tool calls and content reconstructs to exactly one
user turn, two function-call/function-response pairs in order, and one
model text turn. -/
theorem C7_witness :
    build_contents_from_history histC7 = histC7.flatMap specTurnsOfMessage ∧
    build_contents_from_history histC7 =
      [⟨"user", [textPart "hi"]⟩,
       ⟨"model", [functionCallPart "t1" [("a", "1")]]⟩,
       ⟨"user", [functionResponsePart "t1" "r1"]⟩,
       ⟨"model", [functionCallPart "t2" []]⟩,
       ⟨"user", [functionResponsePart "t2" "r2"]⟩,
       ⟨"model", [textPart "ans"]⟩] :=
  ⟨C7_history_reconstruction histC7 (by decide), by decide⟩

/-! Section: Spending-summary lemmas -/

theorem lookup_setAssoc {α : Type} (l : List (String × α)) (k k' : String) (v : α) :
    lookupAssoc (setAssoc l k v) k' =
      if k' = k then some v else lookupAssoc l k' := by
  induction l with
  | nil =>
    by_cases hk : k' = k
    · subst hk
      simp [setAssoc, lookupAssoc]
    · simp [setAssoc, lookupAssoc, hk, Ne.symm hk]
  | cons hd tl ih =>
    rcases hd with ⟨k1, v1⟩
    by_cases hk1 : k1 = k
    · subst hk1
      by_cases hk : k' = k1
      · subst hk
        simp [setAssoc, lookupAssoc]
      · simp [setAssoc, lookupAssoc, hk, Ne.symm hk]
    · by_cases hk : k' = k
      · subst hk
        simp [setAssoc, lookupAssoc, hk1, ih]
      · by_cases hk1' : k1 = k' <;> simp [setAssoc, lookupAssoc, hk1, hk1', hk, ih]

theorem lookup_bumpAssoc (l : List (String × ℚ)) (k k' : String) (a : ℚ) :
    lookupAssoc (bumpAssoc l k a) k' =
      if k' = k then some ((lookupAssoc l k).getD 0 + a) else lookupAssoc l k' := by
  induction l with
  | nil =>
    by_cases hk : k' = k
    · subst hk
      simp [bumpAssoc, lookupAssoc]
    · simp [bumpAssoc, lookupAssoc, hk, Ne.symm hk]
  | cons hd tl ih =>
    rcases hd with ⟨k1, v1⟩
    by_cases hk1 : k1 = k
    · subst hk1
      by_cases hk : k' = k1
      · subst hk
        simp [bumpAssoc, lookupAssoc]
      · simp [bumpAssoc, lookupAssoc, hk, Ne.symm hk]
    · by_cases hk : k' = k
      · subst hk
        simp [bumpAssoc, lookupAssoc, hk1, ih]
      · by_cases hk1' : k1 = k' <;> simp [bumpAssoc, lookupAssoc, hk1, hk1', hk, ih]

theorem lookup_map_round2 (l : List (String × ℚ)) (c : String) :
    lookupAssoc (l.map (fun p => (p.1, round2 p.2))) c =
      (lookupAssoc l c).map round2 := by
  induction l with
  | nil => rfl
  | cons hd tl ih =>
    rcases hd with ⟨k, v⟩
    by_cases hk : k = c <;> simp [lookupAssoc, hk, ih]

theorem lookup_setAssoc_fold_not_mem {α : Type} (months : List String) (g : String → α)
    (init : List (String × α)) (m : String) (h : m ∉ months) :
    lookupAssoc (months.foldl (fun sd mo => setAssoc sd mo (g mo)) init) m =
      lookupAssoc init m := by
  induction months generalizing init with
  | nil => rfl
  | cons mo tl ih =>
    rw [List.foldl_cons, ih _ (fun hm => h (List.mem_cons_of_mem _ hm)),
      lookup_setAssoc, if_neg (fun he => h (by rw [he]; exact List.mem_cons_self _ _))]

theorem lookup_setAssoc_fold_mem {α : Type} (months : List String) (g : String → α)
    (init : List (String × α)) (m : String) (hnd : months.Nodup) (hm : m ∈ months) :
    lookupAssoc (months.foldl (fun sd mo => setAssoc sd mo (g mo)) init) m =
      some (g m) := by
  induction months generalizing init with
  | nil => cases hm
  | cons mo tl ih =>
    rw [List.foldl_cons]
    by_cases hmo : m = mo
    · subst hmo
      rw [lookup_setAssoc_fold_not_mem tl g _ m (List.nodup_cons.mp hnd).1,
        lookup_setAssoc, if_pos rfl]
    · rcases List.mem_cons.mp hm with h1 | h1
      · exact absurd h1 hmo
      · exact ih _ (List.nodup_cons.mp hnd).2 h1

theorem foldl_append_flatMap {α β : Type} (l : List α) (f : α → List β) (acc : List β) :
    l.foldl (fun a x => a ++ f x) acc = acc ++ l.flatMap f := by
  induction l generalizing acc with
  | nil => simp
  | cons x xs ih => rw [List.foldl_cons, ih, List.flatMap_cons, List.append_assoc]

theorem gtfm_eq_flatMap (txStore : List TxDoc) (months : List String) :
    get_transactions_for_months txStore months =
      months.flatMap (fun mo => txStore.filter (fun t => t.billingMonth == some mo)) := by
  unfold get_transactions_for_months
  exact foldl_append_flatMap months _ []

theorem filter_other_month (txStore : List TxDoc) (mo m : String) (h : mo ≠ m) :
    (txStore.filter (fun t => t.billingMonth == some mo)).filter
      (fun t => t.billingMonth == some m) = [] := by
  rw [List.filter_filter]
  rw [List.filter_eq_nil_iff]
  intro t _
  by_cases h1 : t.billingMonth = some m <;> by_cases h2 : t.billingMonth = some mo <;>
    simp_all

theorem filter_months_not_mem (txStore : List TxDoc) (months : List String) (m : String)
    (h : m ∉ months) :
    (months.flatMap (fun mo => txStore.filter (fun t => t.billingMonth == some mo))).filter
      (fun t => t.billingMonth == some m) = [] := by
  induction months with
  | nil => rfl
  | cons mo tl ih =>
    rw [List.flatMap_cons, List.filter_append,
      ih (fun hm => h (List.mem_cons_of_mem _ hm)),
      filter_other_month txStore mo m
        (fun he => h (by rw [← he]; exact List.mem_cons_self _ _))]
    rfl

theorem filter_months_mem (txStore : List TxDoc) (months : List String) (m : String)
    (hnd : months.Nodup) (hm : m ∈ months) :
    (months.flatMap (fun mo => txStore.filter (fun t => t.billingMonth == some mo))).filter
      (fun t => t.billingMonth == some m) =
      txStore.filter (fun t => t.billingMonth == some m) := by
  induction months with
  | nil => cases hm
  | cons mo tl ih =>
    rw [List.flatMap_cons, List.filter_append]
    by_cases hmo : mo = m
    · subst hmo
      rw [filter_months_not_mem txStore tl mo (List.nodup_cons.mp hnd).1,
        List.filter_filter, List.append_nil]
      exact List.filter_congr (fun t _ => Bool.and_self _)
    · rcases List.mem_cons.mp hm with h1 | h1
      · exact absurd h1.symm hmo
      · rw [filter_other_month txStore mo m hmo, List.nil_append]
        exact ih (List.nodup_cons.mp hnd).2 h1

theorem bumpFold_cons (key : TxDoc → String) (t : TxDoc) (tl : List TxDoc)
    (l : List (String × ℚ)) :
    bumpFold key (t :: tl) l =
      bumpFold key tl
        (if t.debitOrCredit == some "debit" then bumpAssoc l (key t) (t.amount.getD 0)
         else l) := rfl

theorem spendStep_debit (acc : SpendAcc) (t : TxDoc)
    (hd : (t.debitOrCredit == some "debit") = true) :
    spendStep acc t =
      ⟨acc.total + t.amount.getD 0,
       bumpAssoc acc.by_card (t.cardProvider.getD "unknown") (t.amount.getD 0),
       bumpAssoc acc.by_category (t.category.getD "Other") (t.amount.getD 0)⟩ := by
  unfold spendStep
  rw [if_pos hd]

theorem spendStep_credit (acc : SpendAcc) (t : TxDoc)
    (hd : (t.debitOrCredit == some "debit") = false) :
    spendStep acc t = acc := by
  unfold spendStep
  rw [if_neg (by simp [hd])]

theorem spendFold_total (txs : List TxDoc) (acc : SpendAcc) :
    (txs.foldl spendStep acc).total =
      acc.total + sumAmounts (txs.filter (fun t => t.debitOrCredit == some "debit")) := by
  induction txs generalizing acc with
  | nil => simp [sumAmounts]
  | cons t tl ih =>
    rw [List.foldl_cons, List.filter_cons]
    by_cases hd : (t.debitOrCredit == some "debit") = true
    · rw [if_pos hd, spendStep_debit acc t hd, ih]
      simp [sumAmounts, add_assoc]
    · rw [if_neg hd, spendStep_credit acc t (by revert hd; cases t.debitOrCredit == some "debit" <;> simp), ih]

theorem spendFold_by_category (txs : List TxDoc) (acc : SpendAcc) :
    (txs.foldl spendStep acc).by_category =
      bumpFold (fun t => t.category.getD "Other") txs acc.by_category := by
  induction txs generalizing acc with
  | nil => rfl
  | cons t tl ih =>
    rw [List.foldl_cons, bumpFold_cons]
    by_cases hd : (t.debitOrCredit == some "debit") = true
    · rw [if_pos hd, spendStep_debit acc t hd, ih]
    · rw [if_neg hd,
        spendStep_credit acc t (by revert hd; cases t.debitOrCredit == some "debit" <;> simp),
        ih]

theorem spendFold_by_card (txs : List TxDoc) (acc : SpendAcc) :
    (txs.foldl spendStep acc).by_card =
      bumpFold (fun t => t.cardProvider.getD "unknown") txs acc.by_card := by
  induction txs generalizing acc with
  | nil => rfl
  | cons t tl ih =>
    rw [List.foldl_cons, bumpFold_cons]
    by_cases hd : (t.debitOrCredit == some "debit") = true
    · rw [if_pos hd, spendStep_debit acc t hd, ih]
    · rw [if_neg hd,
        spendStep_credit acc t (by revert hd; cases t.debitOrCredit == some "debit" <;> simp),
        ih]

theorem lookup_bumpFold_isSome (key : TxDoc → String) (txs : List TxDoc)
    (l : List (String × ℚ)) (c : String) :
    (lookupAssoc (bumpFold key txs l) c).isSome =
      ((lookupAssoc l c).isSome ||
        !(txs.filter (fun t => t.debitOrCredit == some "debit" && key t == c)).isEmpty) := by
  induction txs generalizing l with
  | nil => simp [bumpFold]
  | cons t tl ih =>
    rw [bumpFold_cons, List.filter_cons]
    by_cases hd : (t.debitOrCredit == some "debit") = true
    · by_cases hc : (key t == c) = true
      · have hpt : (t.debitOrCredit == some "debit" && key t == c) = true := by
          rw [hd, hc]
          rfl
        rw [if_pos hd, if_pos hpt, ih, lookup_bumpAssoc,
          if_pos ((beq_iff_eq.mp hc).symm)]
        simp
      · have hc' : (key t == c) = false := by
          revert hc
          cases key t == c <;> simp
        have hpt : (t.debitOrCredit == some "debit" && key t == c) = false := by
          rw [hc', Bool.and_false]
        rw [if_pos hd, if_neg (by simp [hpt]), ih, lookup_bumpAssoc,
          if_neg (fun he => by rw [he] at hc'; simp at hc')]
    · have hd' : (t.debitOrCredit == some "debit") = false := by
        revert hd
        cases t.debitOrCredit == some "debit" <;> simp
      have hpt : (t.debitOrCredit == some "debit" && key t == c) = false := by
        rw [hd', Bool.false_and]
      rw [if_neg (by simp [hd']), if_neg (by simp [hpt]), ih]

theorem lookup_bumpFold_getD (key : TxDoc → String) (txs : List TxDoc)
    (l : List (String × ℚ)) (c : String) :
    (lookupAssoc (bumpFold key txs l) c).getD 0 =
      (lookupAssoc l c).getD 0 +
        sumAmounts (txs.filter (fun t => t.debitOrCredit == some "debit" && key t == c)) := by
  induction txs generalizing l with
  | nil => simp [bumpFold, sumAmounts]
  | cons t tl ih =>
    rw [bumpFold_cons, List.filter_cons]
    by_cases hd : (t.debitOrCredit == some "debit") = true
    · by_cases hc : (key t == c) = true
      · have hpt : (t.debitOrCredit == some "debit" && key t == c) = true := by
          rw [hd, hc]
          rfl
        have hkc : c = key t := (beq_iff_eq.mp hc).symm
        rw [if_pos hd, if_pos hpt, ih, lookup_bumpAssoc, if_pos hkc, hkc]
        simp [sumAmounts, add_assoc]
      · have hc' : (key t == c) = false := by
          revert hc
          cases key t == c <;> simp
        have hpt : (t.debitOrCredit == some "debit" && key t == c) = false := by
          rw [hc', Bool.and_false]
        rw [if_pos hd, if_neg (by simp [hpt]), ih, lookup_bumpAssoc,
          if_neg (fun he => by rw [he] at hc'; simp at hc')]
    · have hd' : (t.debitOrCredit == some "debit") = false := by
        revert hd
        cases t.debitOrCredit == some "debit" <;> simp
      have hpt : (t.debitOrCredit == some "debit" && key t == c) = false := by
        rw [hd', Bool.false_and]
      rw [if_neg (by simp [hd']), if_neg (by simp [hpt]), ih]

theorem breakdown_eq (txStore : List TxDoc) (m : String) (key : TxDoc → String)
    (c : String) :
    lookupAssoc ((bumpFold key (txStore.filter (fun t => t.billingMonth == some m))
        []).map (fun p => (p.1, round2 p.2))) c =
      (if ((specDebitTxsOfMonth txStore m).filter (fun t => key t == c)).isEmpty then none
       else some (round2 (sumAmounts
         ((specDebitTxsOfMonth txStore m).filter (fun t => key t == c))))) := by
  have hfe : (txStore.filter (fun t => t.billingMonth == some m)).filter
      (fun t => t.debitOrCredit == some "debit" && key t == c) =
      (specDebitTxsOfMonth txStore m).filter (fun t => key t == c) := by
    unfold specDebitTxsOfMonth
    rw [List.filter_filter, List.filter_filter]
    exact List.filter_congr (fun t _ => by
      cases h1 : t.billingMonth == some m <;>
        cases h2 : t.debitOrCredit == some "debit" <;>
        cases h3 : key t == c <;> simp [h1, h2, h3])
  rw [lookup_map_round2]
  have hs := lookup_bumpFold_isSome key
    (txStore.filter (fun t => t.billingMonth == some m)) [] c
  have hg := lookup_bumpFold_getD key
    (txStore.filter (fun t => t.billingMonth == some m)) [] c
  rw [hfe] at hs hg
  rcases hlb : lookupAssoc (bumpFold key
      (txStore.filter (fun t => t.billingMonth == some m)) []) c with _ | v
  · rw [hlb] at hs
    simp only [lookupAssoc, Option.isSome_none, Bool.false_or] at hs
    have hnil : ((specDebitTxsOfMonth txStore m).filter (fun t => key t == c)).isEmpty
        = true := by
      revert hs
      cases ((specDebitTxsOfMonth txStore m).filter (fun t => key t == c)).isEmpty <;> simp
    rw [if_pos hnil]
    rfl
  · rw [hlb] at hs hg
    simp only [lookupAssoc, Option.isSome_some, Option.isSome_none, Bool.false_or,
      Option.getD_some, Option.getD_none, zero_add] at hs hg
    have hempty : ((specDebitTxsOfMonth txStore m).filter (fun t => key t == c)).isEmpty
        = false := by
      revert hs
      cases ((specDebitTxsOfMonth txStore m).filter (fun t => key t == c)).isEmpty <;> simp
    rw [if_neg (by simp [hempty]), Option.map_some', hg]

/-- C8 (amended): for a duplicate-free requested list of billing
months, the spending summary of each requested month aggregates debit
transactions only — its total is the rounded sum of that month's debit
amounts, its per-category and per-card breakdowns hold the rounded
debit sums per key, and its transaction count is the month's row count.
(As the counterexample shows, a requested list that repeats a month
fetches and aggregates that month's rows once per occurrence, doubling
the reported totals, so the claim as stated fails for duplicate
requests.) -/
theorem C8_spending_summary :
    ∀ (txStore : List TxDoc) (months : List String) (gb m : String),
      months.Nodup → m ∈ months →
      ∃ s, lookupAssoc (execute_get_spending_summary txStore months gb) m = some s ∧
        s.total = specMonthTotal txStore m ∧
        s.transaction_count =
          (txStore.filter (fun t => t.billingMonth == some m)).length ∧
        (∀ c, lookupAssoc s.by_category c = specCategoryTotal txStore m c) ∧
        (∀ k, lookupAssoc s.by_card k = specCardTotal txStore m k) := by
  intro txStore months gb m hnd hm
  have hmonth : (get_transactions_for_months txStore months).filter
      (fun t => t.billingMonth == some m) =
      txStore.filter (fun t => t.billingMonth == some m) := by
    rw [gtfm_eq_flatMap]
    exact filter_months_mem txStore months m hnd hm
  refine ⟨summarizeMonth (get_transactions_for_months txStore months) m, ?_, ?_, ?_, ?_, ?_⟩
  · unfold execute_get_spending_summary
    exact lookup_setAssoc_fold_mem months _ [] m hnd hm
  · unfold summarizeMonth specMonthTotal
    dsimp only
    rw [hmonth, spendFold_total, zero_add]
    congr 1
    unfold specDebitTxsOfMonth
    rw [List.filter_filter]
    exact congrArg sumAmounts (List.filter_congr (fun t _ => Bool.and_comm _ _))
  · unfold summarizeMonth
    dsimp only
    rw [hmonth]
  · intro c
    unfold summarizeMonth
    dsimp only
    rw [spendFold_by_category, hmonth]
    exact breakdown_eq txStore m (fun t => t.category.getD "Other") c
  · intro k
    unfold summarizeMonth
    dsimp only
    rw [spendFold_by_card, hmonth]
    exact breakdown_eq txStore m (fun t => t.cardProvider.getD "unknown") k

/-- C8 counterexample: requesting the same month twice double-counts —
with the claim's three transactions stored once, the request
`["2024-01", "2024-01"]` reports a total of 260 for 2024-01 (Food 200,
Travel 60) while the month's debit transactions sum (rounded) is 130. -/
theorem C8_claim_counterexample :
    lookupAssoc (execute_get_spending_summary txsC8 ["2024-01", "2024-01"] "category")
        "2024-01" =
      some ⟨260, [("hdfc", 260)], [("Food", 200), ("Travel", 60)], 6⟩ ∧
    specMonthTotal txsC8 "2024-01" = 130 ∧
    (260 : ℚ) ≠ 130 := by
  refine ⟨by with_unfolding_all rfl, by with_unfolding_all rfl, by norm_num⟩

/-- C8 witness: the amended theorem evaluated on the claim's three
transactions for a single requested month: total 130, Food 100,
Travel 30, credits excluded. -/
theorem C8_witness :
    lookupAssoc (execute_get_spending_summary txsC8 ["2024-01"] "category") "2024-01" =
      some ⟨130, [("hdfc", 130)], [("Food", 100), ("Travel", 30)], 3⟩ ∧
    specMonthTotal txsC8 "2024-01" = 130 ∧
    specCategoryTotal txsC8 "2024-01" "Food" = some 100 ∧
    specCategoryTotal txsC8 "2024-01" "Travel" = some 30 := by
  have h := C8_spending_summary txsC8 ["2024-01"] "category" "2024-01"
    (by decide) (by decide)
  exact ⟨by with_unfolding_all rfl, by with_unfolding_all rfl,
    by with_unfolding_all rfl, by with_unfolding_all rfl⟩

end Finybot
